import Mathlib

/-!
Verification development for the link-download/processing pipeline of the
telegram video-downloader bot.  The Python sources are shallowly embedded:
pure string/list manipulation is translated directly; the effectful pipeline
steps (subprocess invocations, Telegram API calls, filesystem probes) are
modelled by explicit oracle records that enumerate the outcomes the source
code distinguishes, and each function becomes a pure Lean function of its
oracle that follows the source's control flow branch by branch.
-/

/-- A filesystem path as used by the bot, identified by its `pathlib` stem and
suffix (the bot only ever inspects `.stem`, `.suffix` and full-path equality;
a `pathlib.Path` with name `stem ++ suffix` corresponds to this pair). -/
structure FPath where
  stem : String
  ext : String
deriving DecidableEq, Repr

/-- Python regex `\d` on ASCII input: the characters '0'..'9' (codes 48-57). -/
def isPyDigit (c : Char) : Bool := 48 ≤ c.toNat && c.toNat ≤ 57

/-- Python regex `\s` on ASCII input: space and codes 9-13 (\t \n \v \f \r). -/
def isPySpace (c : Char) : Bool := c = ' ' || (9 ≤ c.toNat && c.toNat ≤ 13)

/-- The separator character class `[_\s-]` (= `[_\-\s]`) used by both
filename-index extractors. -/
def isSepChar (c : Char) : Bool := c = '_' || c = '-' || isPySpace c

/-- Value of a nonempty decimal digit string, as Python's `int(...)`. -/
def digitsToNat (ds : List Char) : Nat :=
  ds.foldl (fun n c => 10 * n + (c.toNat - 48)) 0

/-- `re.search(r"[_\s-](\d+)$", s)`: scan left to right for a separator that is
immediately followed by a nonempty all-digit run reaching the end of the
string; return that digit group.  (With the `$` anchor this is exactly the
leftmost match the Python engine finds.) -/
def searchSepDigitsEnd : List Char → Option (List Char)
  | [] => none
  | c :: rest =>
    if isSepChar c && !rest.isEmpty && rest.all isPyDigit then some rest
    else searchSepDigitsEnd rest

/-- `re.search(r"(\d+)$", s)`: a match starting at position `i` exists exactly
when the suffix from `i` is nonempty and all digits (greedy `\d+` must reach
the `$` anchor); the leftmost such suffix is returned. -/
def searchDigitsEnd : List Char → Option (List Char)
  | [] => none
  | c :: rest =>
    if (c :: rest).all isPyDigit then some (c :: rest)
    else searchDigitsEnd rest

/-- `re.search(r"(\d+)", s)`: leftmost maximal digit run. -/
def searchDigitsAny : List Char → Option (List Char)
  | [] => none
  | c :: rest =>
    if isPyDigit c then some ((c :: rest).takeWhile isPyDigit)
    else searchDigitsAny rest

/-- `services/media_processing.py::extract_filename_index`: three regex passes
of decreasing specificity over the filename stem (`[_\s-](\d+)$`, then
`(\d+)$`, then `(\d+)`), with default sort value 99999 when no digits occur. -/
def MediaProcessing.extract_filename_index (file_path : FPath) : Nat :=
  let stem := file_path.stem.data
  match searchSepDigitsEnd stem with
  | some ds => digitsToNat ds
  | none =>
    match searchDigitsEnd stem with
    | some ds => digitsToNat ds
    | none =>
      match searchDigitsAny stem with
      | some ds => digitsToNat ds
      | none => 99999

/-- First alternative `(\d+)[_\-\s]?` of the anchored pattern in
`services/downloader.py::extract_filename_index`, matched against the whole
stem: a greedy leading digit run, then either end of string or one single
separator ending the string. -/
def dlAltDigitsSep (stem : List Char) : Option (List Char) :=
  let ds := stem.takeWhile isPyDigit
  let rest := stem.dropWhile isPyDigit
  if ds.isEmpty then none
  else if rest.isEmpty then some ds
  else
    match rest with
    | [c] => if isSepChar c then some ds else none
    | _ => none

/-- `services/downloader.py::extract_filename_index`: the anchored search
`^(?:(\d+)[_\-\s]?|.*?[_\-\s](\d+))$` (first alternative preferred), then the
`stem.isdigit()` fallback, with default sort value 999999. -/
def Downloader.extract_filename_index (path : FPath) : Nat :=
  let stem := path.stem.data
  match dlAltDigitsSep stem with
  | some ds => digitsToNat ds
  | none =>
    match searchSepDigitsEnd stem with
    | some ds => digitsToNat ds
    | none =>
      if !stem.isEmpty && stem.all isPyDigit then digitsToNat stem
      else 999999

/-- Stable insertion used by `sortStable`: the new element is placed before
the first element it is `le`-related to, hence before later equal elements. -/
def insertLe {α : Type} (le : α → α → Bool) (a : α) : List α → List α
  | [] => [a]
  | b :: bs => if le a b then a :: b :: bs else b :: insertLe le a bs

/-- A stable sort (for a total preorder `le` this computes the same
permutation as Python's stable `sorted`/`list.sort`). -/
def sortStable {α : Type} (le : α → α → Bool) : List α → List α
  | [] => []
  | a :: as => insertLe le a (sortStable le as)

/-- Python's `sorted(l, key=key)` for a `Nat`-valued key. -/
def sortByKey {α : Type} (key : α → Nat) (l : List α) : List α :=
  sortStable (fun a b => decide (key a ≤ key b)) l

def c9files : List FPath :=
  [⟨"cover", ".png"⟩, ⟨"2", ".jpg"⟩, ⟨"10", ".jpg"⟩, ⟨"1", ".jpg"⟩]

/-- C9: the numeric filename-index extraction maps "3.jpg" to 3 and
"img_007.png" to 7, maps digitless "cover.png" to the sentinel default that
sorts last, and sorting cover.png/2.jpg/10.jpg/1.jpg by the extracted index
yields 1.jpg, 2.jpg, 10.jpg, cover.png — for both copies of the extractor
(media_processing's, sentinel 99999, and downloader's, sentinel 999999). -/
theorem c9_extract_and_sort :
    MediaProcessing.extract_filename_index ⟨"3", ".jpg"⟩ = 3 ∧
    MediaProcessing.extract_filename_index ⟨"img_007", ".png"⟩ = 7 ∧
    MediaProcessing.extract_filename_index ⟨"cover", ".png"⟩ = 99999 ∧
    sortByKey MediaProcessing.extract_filename_index c9files =
      [⟨"1", ".jpg"⟩, ⟨"2", ".jpg"⟩, ⟨"10", ".jpg"⟩, ⟨"cover", ".png"⟩] ∧
    Downloader.extract_filename_index ⟨"3", ".jpg"⟩ = 3 ∧
    Downloader.extract_filename_index ⟨"img_007", ".png"⟩ = 7 ∧
    Downloader.extract_filename_index ⟨"cover", ".png"⟩ = 999999 ∧
    sortByKey Downloader.extract_filename_index c9files =
      [⟨"1", ".jpg"⟩, ⟨"2", ".jpg"⟩, ⟨"10", ".jpg"⟩, ⟨"cover", ".png"⟩] := by
  decide

/-- C10 counterexample: the gallery downloader's index extractor and the
orchestrator/sender's index extractor disagree — on "img_007_abc.jpg" the
downloader's returns its 999999 sentinel while media_processing's third
regex pass returns 7, and on the two-element list below the induced sort
orders differ. -/
theorem c10_counterexample :
    Downloader.extract_filename_index ⟨"img_007_abc", ".jpg"⟩ ≠
      MediaProcessing.extract_filename_index ⟨"img_007_abc", ".jpg"⟩ ∧
    sortByKey Downloader.extract_filename_index
        [⟨"img_007_abc", ".jpg"⟩, ⟨"100", ".jpg"⟩] ≠
      sortByKey MediaProcessing.extract_filename_index
        [⟨"img_007_abc", ".jpg"⟩, ⟨"100", ".jpg"⟩] := by
  decide

theorem digit_not_sep {c : Char} (h : isPyDigit c = true) : isSepChar c = false := by
  have h48 : 48 ≤ c.toNat ∧ c.toNat ≤ 57 := by
    simpa [isPyDigit, Bool.and_eq_true, decide_eq_true_iff] using h
  have h1 : c ≠ '_' := by rintro rfl; exact absurd h48.2 (by decide)
  have h2 : c ≠ '-' := by rintro rfl; exact absurd h48.1 (by decide)
  have h3 : c ≠ ' ' := by rintro rfl; exact absurd h48.1 (by decide)
  have h4 : ¬ c.toNat ≤ 13 := by omega
  simp [isSepChar, isPySpace, h1, h2, h3, h4]

theorem takeWhile_of_all {p : Char → Bool} :
    ∀ {l : List Char}, l.all p = true → l.takeWhile p = l := by
  intro l
  induction l with
  | nil => intro _; rfl
  | cons c cs ih =>
    intro h
    simp only [List.all_cons, Bool.and_eq_true] at h
    simp [List.takeWhile, h.1, ih h.2]

theorem dropWhile_of_all {p : Char → Bool} :
    ∀ {l : List Char}, l.all p = true → l.dropWhile p = [] := by
  intro l
  induction l with
  | nil => intro _; rfl
  | cons c cs ih =>
    intro h
    simp only [List.all_cons, Bool.and_eq_true] at h
    simp [List.dropWhile, h.1, ih h.2]

theorem searchSepDigitsEnd_of_all_digits :
    ∀ {l : List Char}, l.all isPyDigit = true → searchSepDigitsEnd l = none := by
  intro l
  induction l with
  | nil => intro _; rfl
  | cons c cs ih =>
    intro h
    simp only [List.all_cons, Bool.and_eq_true] at h
    simp [searchSepDigitsEnd, digit_not_sep h.1, ih h.2]

theorem searchSepDigitsEnd_digits_sep {c : Char} (_hc : isSepChar c = true) :
    ∀ {ds : List Char}, ds.all isPyDigit = true →
      searchSepDigitsEnd (ds ++ [c]) = none := by
  intro ds
  induction ds with
  | nil => intro _; simp [searchSepDigitsEnd]
  | cons d ds ih =>
    intro h
    simp only [List.all_cons, Bool.and_eq_true] at h
    simp [searchSepDigitsEnd, digit_not_sep h.1, ih h.2]

theorem all_takeWhile {p : Char → Bool} (l : List Char) :
    (l.takeWhile p).all p = true := by
  simp only [List.all_eq_true]
  intro x hx
  exact List.mem_takeWhile_imp hx

theorem dlAlt_some_imp_searchSep_none {l ds : List Char}
    (h : dlAltDigitsSep l = some ds) : searchSepDigitsEnd l = none := by
  have hall : (l.takeWhile isPyDigit).all isPyDigit = true := all_takeWhile l
  unfold dlAltDigitsSep at h
  by_cases hemp : (l.takeWhile isPyDigit).isEmpty = true
  · simp [hemp] at h
  · by_cases hrest : (l.dropWhile isPyDigit).isEmpty = true
    · have hl : l.all isPyDigit = true := by
        have hsplit := List.takeWhile_append_dropWhile (p := isPyDigit) (l := l)
        rw [List.isEmpty_iff] at hrest
        rw [hrest, List.append_nil] at hsplit
        rw [← hsplit]
        exact hall
      exact searchSepDigitsEnd_of_all_digits hl
    · simp only [hemp, hrest, if_false, Bool.false_eq_true] at h
      match hm : l.dropWhile isPyDigit with
      | [] => rw [hm] at hrest; simp at hrest
      | [c] =>
        rw [hm] at h
        by_cases hsep : isSepChar c = true
        · have hl : l = l.takeWhile isPyDigit ++ [c] := by
            conv_lhs => rw [← List.takeWhile_append_dropWhile (p := isPyDigit) (l := l)]
            rw [hm]
          rw [hl]
          exact searchSepDigitsEnd_digits_sep hsep hall
        · simp [hsep] at h
      | c₁ :: c₂ :: cs => rw [hm] at h; simp at h

theorem searchSepDigitsEnd_of_no_digits :
    ∀ {l : List Char}, (∀ c ∈ l, isPyDigit c = false) → searchSepDigitsEnd l = none := by
  intro l
  induction l with
  | nil => intro _; rfl
  | cons c cs ih =>
    intro h
    have hcs : ∀ x ∈ cs, isPyDigit x = false := fun x hx => h x (List.mem_cons_of_mem c hx)
    unfold searchSepDigitsEnd
    have : (isSepChar c && !cs.isEmpty && cs.all isPyDigit) = false := by
      match hm : cs with
      | [] => simp
      | d :: ds =>
        have : isPyDigit d = false := hcs d (by simp)
        simp [this]
    simp [this, ih hcs]

theorem searchDigitsEnd_of_no_digits :
    ∀ {l : List Char}, (∀ c ∈ l, isPyDigit c = false) → searchDigitsEnd l = none := by
  intro l
  induction l with
  | nil => intro _; rfl
  | cons c cs ih =>
    intro h
    have hc : isPyDigit c = false := h c (by simp)
    have hcs : ∀ x ∈ cs, isPyDigit x = false := fun x hx => h x (List.mem_cons_of_mem c hx)
    simp [searchDigitsEnd, hc, ih hcs]

theorem searchDigitsAny_of_no_digits :
    ∀ {l : List Char}, (∀ c ∈ l, isPyDigit c = false) → searchDigitsAny l = none := by
  intro l
  induction l with
  | nil => intro _; rfl
  | cons c cs ih =>
    intro h
    have hc : isPyDigit c = false := h c (by simp)
    have hcs : ∀ x ∈ cs, isPyDigit x = false := fun x hx => h x (List.mem_cons_of_mem c hx)
    simp [searchDigitsAny, hc, ih hcs]

/-- C10 amended: the two extractors agree on stems of gallery-dl's default
shapes — all-digit stems, and stems ending in a separator followed by digits —
and both send digit-free stems to large sentinel defaults (999999 resp.
99999); on other stems they may disagree (see the counterexample). -/
theorem c10_amended :
    (∀ p : FPath,
      ((p.stem.data ≠ [] ∧ p.stem.data.all isPyDigit = true) ∨
        (searchSepDigitsEnd p.stem.data).isSome = true) →
      Downloader.extract_filename_index p = MediaProcessing.extract_filename_index p) ∧
    (∀ q : FPath, (∀ c ∈ q.stem.data, isPyDigit c = false) →
      Downloader.extract_filename_index q = 999999 ∧
        MediaProcessing.extract_filename_index q = 99999) := by
  constructor
  · intro p hp
    rcases hp with ⟨hne, hall⟩ | hsome
    · have htake := takeWhile_of_all (p := isPyDigit) hall
      have hdrop := dropWhile_of_all (p := isPyDigit) hall
      have hsep := searchSepDigitsEnd_of_all_digits hall
      have hde : searchDigitsEnd p.stem.data = some p.stem.data := by
        match hm : p.stem.data with
        | [] => exact absurd hm hne
        | c :: cs =>
          rw [hm] at hall
          simp [searchDigitsEnd, hall]
      have hemp : p.stem.data.isEmpty = false := by
        match hm : p.stem.data with
        | [] => exact absurd hm hne
        | c :: cs => rfl
      simp [Downloader.extract_filename_index, MediaProcessing.extract_filename_index,
        dlAltDigitsSep, htake, hdrop, hemp, hsep, hde]
    · match hdl : dlAltDigitsSep p.stem.data with
      | some ds =>
        have := dlAlt_some_imp_searchSep_none hdl
        rw [this] at hsome
        simp at hsome
      | none =>
        match hs : searchSepDigitsEnd p.stem.data with
        | none => rw [hs] at hsome; simp at hsome
        | some ds =>
          simp [Downloader.extract_filename_index, MediaProcessing.extract_filename_index,
            hdl, hs]
  · intro q hq
    have h1 := searchSepDigitsEnd_of_no_digits hq
    have h2 := searchDigitsEnd_of_no_digits hq
    have h3 := searchDigitsAny_of_no_digits hq
    constructor
    · match hm : q.stem.data with
      | [] =>
        simp [Downloader.extract_filename_index, dlAltDigitsSep, hm, searchSepDigitsEnd]
      | c :: cs =>
        have hc : isPyDigit c = false := hq c (by rw [hm]; simp)
        rw [hm] at h1
        simp [Downloader.extract_filename_index, dlAltDigitsSep, hm,
          List.takeWhile_cons, hc, h1]
    · simp [MediaProcessing.extract_filename_index, h1, h2, h3]

/-- C10 amended, witness: on "img_07.jpg" (separator-then-digits shape) both
extractors return 7, and on digit-free "cover.png" they return their
respective sentinels. -/
theorem c10_amended_witness :
    ((searchSepDigitsEnd ("img_07".data)).isSome = true ∧
      Downloader.extract_filename_index ⟨"img_07", ".jpg"⟩ =
        MediaProcessing.extract_filename_index ⟨"img_07", ".jpg"⟩) ∧
    ((∀ c ∈ "cover".data, isPyDigit c = false) ∧
      Downloader.extract_filename_index ⟨"cover", ".png"⟩ = 999999 ∧
        MediaProcessing.extract_filename_index ⟨"cover", ".png"⟩ = 99999) :=
  ⟨⟨by decide, c10_amended.1 ⟨"img_07", ".jpg"⟩ (Or.inr (by decide))⟩,
    ⟨by decide, c10_amended.2 ⟨"cover", ".png"⟩ (by decide)⟩⟩

/-! ## Configuration (config.py) and media-kind classification -/

/-- `config.SUPPORTED_IMAGE_EXTENSIONS`. -/
def SUPPORTED_IMAGE_EXTENSIONS : List String := [".jpg", ".jpeg", ".png", ".webp"]

/-- `config.SUPPORTED_VIDEO_EXTENSIONS`. -/
def SUPPORTED_VIDEO_EXTENSIONS : List String := [".mp4", ".mov", ".avi", ".mkv", ".webm"]

/-- `config.SUPPORTED_AUDIO_EXTENSIONS`. -/
def SUPPORTED_AUDIO_EXTENSIONS : List String := [".mp3", ".m4a", ".ogg", ".aac", ".opus", ".wav"]

/-- `config.ALL_SUPPORTED_MEDIA_EXTENSIONS` (union of the three sets). -/
def ALL_SUPPORTED_MEDIA_EXTENSIONS : List String :=
  SUPPORTED_IMAGE_EXTENSIONS ++ SUPPORTED_VIDEO_EXTENSIONS ++ SUPPORTED_AUDIO_EXTENSIONS

/-- Python's `str.lower()` (characterwise; adequate for ASCII suffixes). -/
def strLower (s : String) : String := ⟨s.data.map Char.toLower⟩

/-- `f.suffix.lower() in exts`. -/
def suffixIn (f : FPath) (exts : List String) : Bool :=
  decide (strLower f.ext ∈ exts)

def isImageFile (f : FPath) : Bool := suffixIn f SUPPORTED_IMAGE_EXTENSIONS

def isAudioFile (f : FPath) : Bool := suffixIn f SUPPORTED_AUDIO_EXTENSIONS

def isVideoFile (f : FPath) : Bool := suffixIn f SUPPORTED_VIDEO_EXTENSIONS

/-- Membership in `ALL_SUPPORTED_MEDIA_EXTENSIONS - SUPPORTED_IMAGE_EXTENSIONS -
SUPPORTED_AUDIO_EXTENSIONS`, exactly as written at message_handlers.py:186 and
downloader.py:177. -/
def isNonImageAudioMedia (f : FPath) : Bool :=
  suffixIn f ALL_SUPPORTED_MEDIA_EXTENSIONS &&
    !suffixIn f SUPPORTED_IMAGE_EXTENSIONS && !suffixIn f SUPPORTED_AUDIO_EXTENSIONS

/-! ## DownloadResult (services/downloader.py) -/

/-- `services/downloader.py::DownloadResult`. -/
structure DownloadResult where
  success : Bool
  media_files : List FPath
  error_message : Option String
  is_slideshow : Bool
deriving DecidableEq, Repr

/-! ## C3: the ffconcat list written by create_slideshow_video
(services/media_processing.py lines 183-202) -/

/-- One line of the ffconcat list file: the `ffconcat version 1.0` header, a
`file '<path>'` line, or a `duration <d>` line.  Durations are modelled as
exact rationals (the source formats a float with five decimals; the claim's
arithmetic `duration / count`, floored at 0.001, is exact here). -/
inductive CLine where
  | header
  | fileLine (p : FPath)
  | durationLine (d : ℚ)
deriving DecidableEq, Repr

/-- The sequence of lines written to the concat list file by
`create_slideshow_video` (lines 194-202): the header, then, for every image in
order, its `file` line, its `duration` line, and — because the final-image
write sits inside the loop body in the source — a `file` line for the LAST
image after every iteration. -/
def slideshowConcatLines (image_paths : List FPath) (duration_per_image : ℚ) : List CLine :=
  CLine.header ::
    image_paths.flatMap (fun img =>
      [CLine.fileLine img, CLine.durationLine duration_per_image,
        CLine.fileLine (image_paths.getLastD img)])

/-- `create_slideshow_video`'s list-file contents for a nonempty image list
and positive target duration: per-image duration is
`max 0.001 (duration_secs / num_images)` (line 184). -/
def create_slideshow_listfile (image_paths : List FPath) (duration_secs : ℚ) : Option (List CLine) :=
  if image_paths.isEmpty then none
  else
    some (slideshowConcatLines image_paths
      (max ((1 : ℚ)/1000) (duration_secs / image_paths.length)))

/-- C3 (divergence witness): on the two-image slideshow below with a
10-second target, each image gets the claimed per-image duration
10/2 = 5, but the final image "2.jpg" occurs THREE times as a `file` line
(once with its duration line plus once per loop iteration), not the twice
(once with a duration, once trailing) that the claim states; the undurated
copy is also interleaved after the first image rather than only at the end. -/
theorem c3_last_image_written_every_iteration :
    create_slideshow_listfile [⟨"1", ".jpg"⟩, ⟨"2", ".jpg"⟩] 10 =
      some [CLine.header,
        CLine.fileLine ⟨"1", ".jpg"⟩, CLine.durationLine 5, CLine.fileLine ⟨"2", ".jpg"⟩,
        CLine.fileLine ⟨"2", ".jpg"⟩, CLine.durationLine 5, CLine.fileLine ⟨"2", ".jpg"⟩] ∧
    ((create_slideshow_listfile [⟨"1", ".jpg"⟩, ⟨"2", ".jpg"⟩] 10).getD []).count
        (CLine.fileLine ⟨"2", ".jpg"⟩) = 3 := by
  have hstruct : create_slideshow_listfile [⟨"1", ".jpg"⟩, ⟨"2", ".jpg"⟩] 10 =
      some (slideshowConcatLines [⟨"1", ".jpg"⟩, ⟨"2", ".jpg"⟩]
        (max ((1 : ℚ)/1000) ((10 : ℚ)/(2 : ℚ)))) := rfl
  have hd : max ((1 : ℚ)/1000) ((10 : ℚ)/(2 : ℚ)) = 5 := by norm_num
  rw [hstruct, hd]
  exact ⟨rfl, rfl⟩

/-! ## download_gallery_dl (services/downloader.py lines 69-240)

The subprocess launch, its exit code and stderr classification, the files
found in the temporary directory, and the per-file move outcomes are
oracle inputs; the function body is followed branch by branch. -/

/-- A file found by `temp_dir.glob('*.*')`, with the filesystem facts the
code queries about it: whether `is_file()` holds and whether `shutil.move`
succeeds for it. -/
structure GTmpFile where
  path : FPath
  isFile : Bool
  moveOk : Bool
deriving DecidableEq, Repr

/-- The stderr classification performed on a nonzero gallery-dl exit
(downloader.py lines 212-225); the substring tests themselves are pure string
scanning whose outcome is the oracle input. -/
inductive GdlErrClass where
  | notFound404
  | loginRequired
  | privateContent
  | ageRestricted
  | noExtractor
  | other (lastLine : String)
deriving DecidableEq, Repr

/-- The user-facing message chosen for each stderr class (lines 213-225). -/
def gdlErrMessage : GdlErrClass → String
  | GdlErrClass.notFound404 => "Slideshow/Gallery not found or unavailable (404)."
  | GdlErrClass.loginRequired => "Slideshow/Gallery requires login."
  | GdlErrClass.privateContent => "Content is private."
  | GdlErrClass.ageRestricted => "Content is age-restricted (and login failed/not provided)."
  | GdlErrClass.noExtractor => "URL is not supported by gallery-dl."
  | GdlErrClass.other lastLine =>
      "Failed to download slideshow/gallery (" ++ lastLine ++ "...)"

/-- Oracle for one `download_gallery_dl` run. `launchFails` models the
`FileNotFoundError` when the executable is missing; `unexpectedExc` the
catch-all `except Exception` (reachable only before a result is assembled —
every step after `result.success = True` is pure field access);
`emptyNothingToDownload` the `"warning"/"nothing to download"` stderr test
for an empty temp directory. -/
structure GdlOrc where
  launchFails : Bool
  unexpectedExc : Bool
  exitOk : Bool
  errClass : GdlErrClass
  emptyNothingToDownload : Bool
  tmpFiles : List GTmpFile
deriving Repr

/-- Destination renaming `f"{unique_prefix}_{original_stem}{suffix}"`
(lines 154-156; the `while dest_path.exists()` collision loop always
terminates at a fresh name and is modelled as collision-free). -/
def gdlDest (p : FPath) : FPath := ⟨"media_dl_gdl_" ++ p.stem, p.ext⟩

/-- Classification state built by the move loop (lines 147-184). -/
structure GClassified where
  found_images : List FPath
  found_audio : Option FPath
  found_videos : List FPath
deriving DecidableEq, Repr

/-- One iteration of the move/classify loop (lines 151-184): skip non-files
and `.json` metadata, skip files whose move fails, keep the first audio file
(extras are deleted), collect images and videos by suffix, delete and ignore
unsupported suffixes. -/
def gdlClassifyStep (acc : GClassified) (t : GTmpFile) : GClassified :=
  if !t.isFile || strLower t.path.ext = ".json" then acc
  else if !t.moveOk then acc
  else
    let dest := gdlDest t.path
    if isImageFile dest then
      { acc with found_images := acc.found_images ++ [dest] }
    else if isAudioFile dest then
      match acc.found_audio with
      | some _ => acc
      | none => { acc with found_audio := some dest }
    else if isNonImageAudioMedia dest then
      { acc with found_videos := acc.found_videos ++ [dest] }
    else acc

/-- The `([found_audio] if found_audio else [])` part of line 186/193. -/
def optToList : Option FPath → List FPath
  | some a => [a]
  | none => []

/-- `services/downloader.py::download_gallery_dl` as a function of its
oracle. -/
def download_gallery_dl (o : GdlOrc) : DownloadResult :=
  if o.launchFails then
    ⟨false, [],
      some "Slideshow/Gallery downloader (gallery-dl) not installed or configured correctly.",
      true⟩
  else if o.unexpectedExc then
    ⟨false, [], some "An unexpected error occurred during slideshow/gallery download.", true⟩
  else if o.exitOk then
    if o.tmpFiles.isEmpty then
      if o.emptyNothingToDownload then
        ⟨false, [], some "Gallery/Slideshow: No new media found or already downloaded.", true⟩
      else
        ⟨false, [], some "Slideshow download succeeded technically but found no media files.", true⟩
    else
      let c := o.tmpFiles.foldl gdlClassifyStep ⟨[], none, []⟩
      let images :=
        if c.found_images.length > 1 then
          sortByKey Downloader.extract_filename_index c.found_images
        else c.found_images
      let moved := images ++ c.found_videos ++ (optToList c.found_audio)
      if moved.isEmpty then
        ⟨false, [], some "Slideshow download resulted in no usable media files.", true⟩
      else
        ⟨true, moved, none, true⟩
  else
    ⟨false, [], some (gdlErrMessage o.errClass), true⟩

/-! ## download_media_yt_dlp (services/downloader.py lines 243-429) -/

/-- A file matched by the post-download glob, with the size/type facts the
code queries (lines 330-341). -/
structure YFile where
  path : FPath
  isFile : Bool
  bigEnough : Bool
deriving DecidableEq, Repr

/-- Error taxonomy applied to a `DownloadError`/`ExtractorError` message
(lines 391-405); the substring tests are string scanning whose outcome is the
oracle input. -/
inductive YdlErrClass where
  | privateVideo
  | geoRestricted
  | copyrightClaim
  | maxFilesize
  | notFound404
  | liveEvent
  | generic (cleanMsg : String)
deriving DecidableEq, Repr

def ydlErrMessage : YdlErrClass → String
  | YdlErrClass.privateVideo => "Download failed (Video/Account is private)."
  | YdlErrClass.geoRestricted => "Download failed (Video is geo-restricted)."
  | YdlErrClass.copyrightClaim => "Download failed (Copyright claim)."
  | YdlErrClass.maxFilesize => "Download failed (File size exceeds limit: 250 MB)."
  | YdlErrClass.notFound404 => "Download failed (Content not found - 404 Error)."
  | YdlErrClass.liveEvent => "Download failed (Livestreams/Premieres not supported)."
  | YdlErrClass.generic cleanMsg => "Download failed (yt-dlp: " ++ cleanMsg ++ "...)"

/-- Outcome of the `ydl.extract_info(url, download=True)` call:
it returns an info dict (or `None`), raises a `DownloadError`-class error
(with the `unsupported_markers` substring test outcome), or raises some other
exception. -/
inductive YdlCall where
  | infoNone
  | infoOk
  | raisesDownloadErr (likelyNonVideo : Bool) (cls : YdlErrClass)
  | raisesOther
deriving DecidableEq, Repr

/-- Oracle for one `download_media_yt_dlp` run; `shortFormUrl` is the
tiktok/instagram hostname test of lines 280-282. -/
structure YdlOrc where
  libAvailable : Bool
  shortFormUrl : Bool
  call : YdlCall
  globFiles : List YFile
deriving Repr

/-- `p.name` comparison used by `sorted(downloaded_media, key=lambda p: p.name)`
(line 353). -/
def fpathNameLe (a b : FPath) : Bool :=
  decide ((a.stem ++ a.ext) ≤ (b.stem ++ b.ext))

/-- `services/downloader.py::download_media_yt_dlp` as a function of its
oracle.  A `NonVideoContentError` raise is `Except.error` carrying the
exception detail; a returned `DownloadResult` is `Except.ok`. -/
def download_media_yt_dlp (o : YdlOrc) : Except String DownloadResult :=
  if !o.libAvailable then
    Except.ok ⟨false, [], some "yt-dlp library is not available.", false⟩
  else
    match o.call with
    | YdlCall.infoNone =>
      Except.error "yt-dlp returned no info, potentially unsupported content (photo/slideshow?)"
    | YdlCall.infoOk =>
      let downloaded := (o.globFiles.filter (fun f =>
          f.isFile && f.bigEnough && suffixIn f.path ALL_SUPPORTED_MEDIA_EXTENSIONS)).map
        (fun f => f.path)
      let merged := (downloaded.filter (fun p => strLower p.ext = ".mp4")).getLast?
      match merged with
      | some m => Except.ok ⟨true, [m], none, false⟩
      | none =>
        if !downloaded.isEmpty then
          Except.ok ⟨true, sortStable fpathNameLe downloaded, none, false⟩
        else if o.shortFormUrl then
          Except.error "yt-dlp found no valid media files (likely photo/slideshow or other issue)"
        else
          Except.ok ⟨false, [],
            some "Download failed (no compatible media files found after processing).", false⟩
    | YdlCall.raisesDownloadErr likelyNonVideo cls =>
      if o.shortFormUrl && likelyNonVideo then
        Except.error "yt-dlp failed with error suggesting unsupported content"
      else
        Except.ok ⟨false, [], some (ydlErrMessage cls), false⟩
    | YdlCall.raisesOther =>
      if o.shortFormUrl then
        Except.error "Unexpected yt-dlp failure"
      else
        Except.ok ⟨false, [], some "An unexpected error occurred during download.", false⟩

theorem insertLe_length {α : Type} (le : α → α → Bool) (a : α) :
    ∀ (l : List α), (insertLe le a l).length = l.length + 1 := by
  intro l
  induction l with
  | nil => rfl
  | cons b bs ih =>
    unfold insertLe
    by_cases h : le a b = true
    · simp [h]
    · simp [h, ih]

theorem sortStable_length {α : Type} (le : α → α → Bool) :
    ∀ (l : List α), (sortStable le l).length = l.length := by
  intro l
  induction l with
  | nil => rfl
  | cons a as ih =>
    unfold sortStable
    rw [insertLe_length, ih]
    simp

theorem sortStable_ne_nil {α : Type} {le : α → α → Bool} {l : List α}
    (h : l ≠ []) : sortStable le l ≠ [] := by
  intro hc
  have := sortStable_length le l
  rw [hc] at this
  exact h (List.eq_nil_of_length_eq_zero this.symm)

theorem sortByKey_length {α : Type} (key : α → Nat) (l : List α) :
    (sortByKey key l).length = l.length :=
  sortStable_length _ l

theorem ydl_ok_invariant (o1 : YdlOrc) (r1 : DownloadResult)
    (h1 : download_media_yt_dlp o1 = Except.ok r1) (hs : r1.success = true) :
    r1.error_message = none ∧ r1.media_files ≠ [] := by
  unfold download_media_yt_dlp at h1
  split at h1
  · injection h1 with h; subst h; simp at hs
  · split at h1
    · exact absurd h1 (by simp)
    · dsimp only at h1
      split at h1
      · injection h1 with h; subst h; simp
      · split at h1
        · rename_i hne
          injection h1 with h
          subst h
          refine ⟨rfl, ?_⟩
          apply sortStable_ne_nil
          intro hnil
          rw [hnil] at hne
          simp at hne
        · split at h1
          · exact absurd h1 (by simp)
          · injection h1 with h; subst h; simp at hs
    · split at h1
      · exact absurd h1 (by simp)
      · injection h1 with h; subst h; simp at hs
    · split at h1
      · exact absurd h1 (by simp)
      · injection h1 with h; subst h; simp at hs

theorem gdl_invariant (o2 : GdlOrc) (r2 : DownloadResult)
    (h2 : download_gallery_dl o2 = r2) (hs : r2.success = true) :
    r2.error_message = none ∧ r2.media_files ≠ [] := by
  unfold download_gallery_dl at h2
  split at h2
  · subst h2; simp at hs
  · split at h2
    · subst h2; simp at hs
    · split at h2
      · split at h2
        · split at h2
          · subst h2; simp at hs
          · subst h2; simp at hs
        · dsimp only at h2
          split at h2 <;> split at h2 <;> subst h2 <;>
            first
            | (refine ⟨rfl, ?_⟩; intro hnil; simp_all)
            | simp at hs
      · subst h2; simp at hs

/-- C6: every DownloadResult actually returned (not raised past) by
download_media_yt_dlp or download_gallery_dl satisfies: success implies
error_message is unset, and success implies a non-empty media_files list
(media_files may be empty only on failure). -/
theorem c6_success_invariant (o1 : YdlOrc) (o2 : GdlOrc) (r1 r2 : DownloadResult)
    (h1 : download_media_yt_dlp o1 = Except.ok r1)
    (h2 : download_gallery_dl o2 = r2) :
    (r1.success = true → r1.error_message = none ∧ r1.media_files ≠ []) ∧
    (r2.success = true → r2.error_message = none ∧ r2.media_files ≠ []) :=
  ⟨fun hs => ydl_ok_invariant o1 r1 h1 hs, fun hs => gdl_invariant o2 r2 h2 hs⟩

def c6orcYdl : YdlOrc := ⟨true, false, YdlCall.infoOk, [⟨⟨"a", ".mp4"⟩, true, true⟩]⟩

def c6resYdl : DownloadResult := ⟨true, [⟨"a", ".mp4"⟩], none, false⟩

def c6orcGdl : GdlOrc :=
  ⟨false, false, true, GdlErrClass.notFound404, false, [⟨⟨"1", ".jpg"⟩, true, true⟩]⟩

def c6resGdl : DownloadResult := ⟨true, [⟨"media_dl_gdl_1", ".jpg"⟩], none, true⟩

/-- C6 witness: a successful yt-dlp run returning one merged .mp4 and a
successful gallery-dl run returning one image; both hypotheses and both
conclusions evaluate on these concrete oracles. -/
theorem c6_success_invariant_witness :
    (download_media_yt_dlp c6orcYdl = Except.ok c6resYdl ∧
      download_gallery_dl c6orcGdl = c6resGdl ∧
      c6resYdl.success = true ∧ c6resGdl.success = true) ∧
    (c6resYdl.error_message = none ∧ c6resYdl.media_files ≠ []) ∧
    (c6resGdl.error_message = none ∧ c6resGdl.media_files ≠ []) :=
  ⟨⟨rfl, rfl, rfl, rfl⟩,
    (c6_success_invariant c6orcYdl c6orcGdl c6resYdl c6resGdl rfl rfl).1 rfl,
    (c6_success_invariant c6orcYdl c6orcGdl c6resYdl c6resGdl rfl rfl).2 rfl⟩

/-! ## send_downloaded_media (utils/telegram_helpers.py lines 88-284)

Telegram call outcomes (each send succeeding or raising) and file existence
are oracle inputs; each successful Telegram call is recorded as an event. -/

/-- A successfully executed Telegram send call, with the caption attached to
each delivered item. -/
inductive SendEvent where
  | mediaGroup (items : List (FPath × Option String))
  | photo (p : FPath) (cap : Option String)
  | video (p : FPath) (cap : Option String)
  | audioMsg (p : FPath) (cap : Option String)
deriving DecidableEq, Repr

/-- Oracle for one `send_downloaded_media` run: which files exist on disk at
send time, and whether each Telegram API call succeeds (`false` = the call
raises; every handler in the source returns `False` from the `except` arms,
regardless of the exception class). -/
structure TgOrc where
  onDisk : FPath → Bool
  groupOk : Bool
  photoOk : Bool
  videoOk : Bool
  audioOk : Bool

structure SendOut where
  events : List SendEvent
  raised : Bool
  result : Bool
deriving DecidableEq, Repr

/-- Python truthiness of an optional caption string. -/
def truthy : Option String → Bool
  | none => false
  | some s => !(decide (s = ""))

/-- The `for i, img_path in enumerate(images_to_send)` loop (lines 147-165):
nonexistent files are skipped (`continue`), the caption goes to the item with
enumeration index 0 only. -/
def buildGroupItemsAux (onDisk : FPath → Bool) (cap : Option String) :
    Nat → List FPath → List (FPath × Option String)
  | _, [] => []
  | i, img :: rest =>
    if onDisk img then
      (img, if i = 0 then cap else none) :: buildGroupItemsAux onDisk cap (i + 1) rest
    else buildGroupItemsAux onDisk cap (i + 1) rest

def buildGroupItems (onDisk : FPath → Bool) (cap : Option String)
    (imgs : List FPath) : List (FPath × Option String) :=
  buildGroupItemsAux onDisk cap 0 imgs

/-- `media_group_caption_used` after the build loop: set exactly when the
index-0 item existed and received a truthy caption. -/
def groupCaptionUsed (onDisk : FPath → Bool) (cap : Option String)
    (imgs : List FPath) : Bool :=
  match imgs with
  | [] => false
  | i0 :: _ => onDisk i0 && truthy cap

/-- Image-sending stage (lines 134-203).  Returns
(events, sent_something, media_group_caption_used, raised). -/
def sendImagesStage (o : TgOrc) (cap : Option String) (images : List FPath) :
    List SendEvent × Bool × Bool × Bool :=
  if images.length > 1 then
    let toSend := images.take 10
    let items := buildGroupItems o.onDisk cap toSend
    if items.isEmpty then ([], false, groupCaptionUsed o.onDisk cap toSend, false)
    else if o.groupOk then
      ([SendEvent.mediaGroup items], true, groupCaptionUsed o.onDisk cap toSend, false)
    else ([], false, groupCaptionUsed o.onDisk cap toSend, true)
  else
    match images with
    | [img] =>
      if o.onDisk img then
        if o.photoOk then ([SendEvent.photo img cap], true, false, false)
        else ([], false, false, true)
      else ([], false, false, false)
    | _ => ([], false, false, false)

/-- Video-sending stage (lines 205-230): only `videos[0]` is considered; the
caption is attached only when nothing was sent yet and the media-group caption
was unused.  Returns (events, sent_something, raised). -/
def sendVideoStage (o : TgOrc) (cap : Option String) (videos : List FPath)
    (sent gcu : Bool) : List SendEvent × Bool × Bool :=
  match videos with
  | [] => ([], sent, false)
  | v :: _ =>
    if o.onDisk v then
      let vcap := if !(sent || gcu) then cap else none
      if o.videoOk then ([SendEvent.video v vcap], true, false)
      else ([], sent, true)
    else ([], sent, false)

/-- Audio-sending stage (lines 232-252), same shape as the video stage. -/
def sendAudioStage (o : TgOrc) (cap : Option String) (audios : List FPath)
    (sent gcu : Bool) : List SendEvent × Bool × Bool :=
  match audios with
  | [] => ([], sent, false)
  | a :: _ =>
    if o.onDisk a then
      let acap := if !(sent || gcu) then cap else none
      if o.audioOk then ([SendEvent.audioMsg a acap], true, false)
      else ([], sent, true)
    else ([], sent, false)

/-- `utils/telegram_helpers.py::send_downloaded_media` as a function of its
oracle: any raising Telegram call aborts the remaining stages and yields
`False` (the source's `except` arms all `return False`). -/
def send_downloaded_media (o : TgOrc) (media_files : List FPath)
    (base_caption : Option String) : SendOut :=
  if media_files.isEmpty then ⟨[], false, false⟩
  else
    let images := sortByKey MediaProcessing.extract_filename_index
      (media_files.filter isImageFile)
    let videos := media_files.filter isVideoFile
    let audios := media_files.filter isAudioFile
    match sendImagesStage o base_caption images with
    | (ev1, sent1, gcu, raised1) =>
      if raised1 then ⟨ev1, true, false⟩
      else
        match sendVideoStage o base_caption videos sent1 gcu with
        | (ev2, sent2, raised2) =>
          if raised2 then ⟨ev1 ++ ev2, true, false⟩
          else
            match sendAudioStage o base_caption audios sent2 gcu with
            | (ev3, sent3, raised3) =>
              if raised3 then ⟨ev1 ++ ev2 ++ ev3, true, false⟩
              else ⟨ev1 ++ ev2 ++ ev3, false, sent3⟩

def c8orc : TgOrc := ⟨fun _ => true, true, true, false, true⟩

def c8files : List FPath := [⟨"1", ".jpg"⟩, ⟨"2", ".jpg"⟩, ⟨"v", ".mp4"⟩]

/-- C8 counterexample: with two photos and a video all on disk, the photo
group is delivered successfully, but the subsequent video send raises, and
the function returns False even though at least one item was actually sent —
so "returns true exactly when at least one item was sent" fails as stated. -/
theorem c8_counterexample :
    (send_downloaded_media c8orc c8files (some "c")).events =
      [SendEvent.mediaGroup [(⟨"1", ".jpg"⟩, some "c"), (⟨"2", ".jpg"⟩, none)]] ∧
    (send_downloaded_media c8orc c8files (some "c")).result = false := by
  decide

def isPhotoPost : SendEvent → Bool
  | SendEvent.mediaGroup _ => true
  | SendEvent.photo _ _ => true
  | _ => false

def isVideoEvent : SendEvent → Bool
  | SendEvent.video _ _ => true
  | _ => false

def isAudioEvent : SendEvent → Bool
  | SendEvent.audioMsg _ _ => true
  | _ => false

theorem insertLe_mem {α : Type} {le : α → α → Bool} {a x : α} :
    ∀ {l : List α}, x ∈ insertLe le a l ↔ x = a ∨ x ∈ l := by
  intro l
  induction l with
  | nil => simp [insertLe]
  | cons b bs ih =>
    unfold insertLe
    by_cases h : le a b = true
    · simp [h]
    · simp only [h, if_false, Bool.false_eq_true, List.mem_cons, ih]
      tauto

theorem sortStable_mem {α : Type} {le : α → α → Bool} {x : α} :
    ∀ {l : List α}, x ∈ sortStable le l ↔ x ∈ l := by
  intro l
  induction l with
  | nil => simp [sortStable]
  | cons a as ih =>
    unfold sortStable
    rw [insertLe_mem]
    simp [ih]

theorem buildGroupItemsAux_length (d : FPath → Bool) (cap : Option String) :
    ∀ (imgs : List FPath) (i : Nat),
      (buildGroupItemsAux d cap i imgs).length ≤ imgs.length := by
  intro imgs
  induction imgs with
  | nil => intro i; simp [buildGroupItemsAux]
  | cons img rest ih =>
    intro i
    unfold buildGroupItemsAux
    by_cases h : d img = true
    · simpa [h] using ih (i + 1)
    · simp only [h, if_false, Bool.false_eq_true, List.length_cons]
      exact Nat.le_succ_of_le (ih (i + 1))

theorem buildGroupItemsAux_fst_mem {d : FPath → Bool} {cap : Option String} :
    ∀ {imgs : List FPath} {i : Nat} {pr : FPath × Option String},
      pr ∈ buildGroupItemsAux d cap i imgs → pr.1 ∈ imgs := by
  intro imgs
  induction imgs with
  | nil => intro i pr h; simp [buildGroupItemsAux] at h
  | cons img rest ih =>
    intro i pr h
    unfold buildGroupItemsAux at h
    by_cases hd : d img = true
    · simp only [hd, if_true, List.mem_cons] at h
      rcases h with h | h
      · subst h; simp
      · exact List.mem_cons_of_mem _ (ih h)
    · simp only [hd, if_false, Bool.false_eq_true] at h
      exact List.mem_cons_of_mem _ (ih h)

theorem buildGroupItemsAux_pos_none {d : FPath → Bool} {cap : Option String} :
    ∀ {imgs : List FPath} {i : Nat} {pr : FPath × Option String},
      1 ≤ i → pr ∈ buildGroupItemsAux d cap i imgs → pr.2 = none := by
  intro imgs
  induction imgs with
  | nil => intro i pr _ h; simp [buildGroupItemsAux] at h
  | cons img rest ih =>
    intro i pr hi h
    unfold buildGroupItemsAux at h
    by_cases hd : d img = true
    · simp only [hd, if_true, List.mem_cons] at h
      rcases h with h | h
      · subst h
        have : ¬ i = 0 := by omega
        simp [this]
      · exact ih (by omega) h
    · simp only [hd, if_false, Bool.false_eq_true] at h
      exact ih (by omega) h

theorem buildGroupItems_tail_none {d : FPath → Bool} {cap : Option String}
    {imgs : List FPath} {pr : FPath × Option String}
    (h : pr ∈ (buildGroupItems d cap imgs).tail) : pr.2 = none := by
  unfold buildGroupItems at h
  match imgs with
  | [] => simp [buildGroupItemsAux] at h
  | img :: rest =>
    unfold buildGroupItemsAux at h
    by_cases hd : d img = true
    · simp only [hd, if_true, List.tail_cons] at h
      exact buildGroupItemsAux_pos_none (by omega) h
    · simp only [hd, if_false, Bool.false_eq_true] at h
      exact buildGroupItemsAux_pos_none (by omega) (List.mem_of_mem_tail h)

theorem buildGroupItems_caption {d : FPath → Bool} {cap : Option String}
    {imgs : List FPath} {pr : FPath × Option String}
    (h : pr ∈ buildGroupItems d cap imgs) (hc : pr.2 ≠ none) :
    (buildGroupItems d cap imgs).head? = some pr ∧ pr.2 = cap := by
  unfold buildGroupItems at h ⊢
  match imgs with
  | [] => simp [buildGroupItemsAux] at h
  | img :: rest =>
    unfold buildGroupItemsAux at h ⊢
    by_cases hd : d img = true
    · simp only [hd, if_true, List.mem_cons] at h ⊢
      rcases h with h | h
      · subst h; simp
      · exact absurd (buildGroupItemsAux_pos_none (by omega) h) hc
    · simp only [hd, if_false, Bool.false_eq_true] at h ⊢
      exact absurd (buildGroupItemsAux_pos_none (by omega) h) hc

theorem imagesStage_cases (o : TgOrc) (cap : Option String) (images : List FPath) :
    (∃ g, sendImagesStage o cap images = ([], false, g, false)) ∨
    (∃ g, sendImagesStage o cap images = ([], false, g, true)) ∨
    (∃ g, images.length > 1 ∧ sendImagesStage o cap images =
      ([SendEvent.mediaGroup (buildGroupItems o.onDisk cap (images.take 10))],
        true, g, false)) ∨
    (∃ img, images = [img] ∧
      sendImagesStage o cap images = ([SendEvent.photo img cap], true, false, false)) := by
  unfold sendImagesStage
  split
  · rename_i hlen
    dsimp only
    split
    · exact Or.inl ⟨_, rfl⟩
    · split
      · exact Or.inr (Or.inr (Or.inl ⟨_, hlen, rfl⟩))
      · exact Or.inr (Or.inl ⟨_, rfl⟩)
  · split
    · rename_i img heq
      split
      · split
        · exact Or.inr (Or.inr (Or.inr ⟨img, rfl, rfl⟩))
        · exact Or.inr (Or.inl ⟨_, rfl⟩)
      · exact Or.inl ⟨_, rfl⟩
    · exact Or.inl ⟨_, rfl⟩

theorem videoStage_cases (o : TgOrc) (cap : Option String) (videos : List FPath)
    (sent gcu : Bool) :
    sendVideoStage o cap videos sent gcu = ([], sent, false) ∨
    sendVideoStage o cap videos sent gcu = ([], sent, true) ∨
    (∃ v c', videos.head? = some v ∧
      sendVideoStage o cap videos sent gcu = ([SendEvent.video v c'], true, false) ∧
      (truthy c' = true → sent = false ∧ gcu = false ∧ c' = cap)) := by
  match videos with
  | [] => exact Or.inl rfl
  | v :: rest =>
    by_cases hd : o.onDisk v = true
    · by_cases hok : o.videoOk = true
      · by_cases hsg : (sent || gcu) = true
        · refine Or.inr (Or.inr ⟨v, none, rfl, ?_, ?_⟩)
          · simp [sendVideoStage, hd, hok, hsg]
          · intro ht; simp [truthy] at ht
        · have hsg' : (sent || gcu) = false := by
            revert hsg; cases h : (sent || gcu) <;> simp
          have hs : sent = false ∧ gcu = false := by
            cases sent <;> cases gcu <;> simp_all
          refine Or.inr (Or.inr ⟨v, cap, rfl, ?_, ?_⟩)
          · simp [sendVideoStage, hd, hok, hsg']
          · intro _; exact ⟨hs.1, hs.2, rfl⟩
      · refine Or.inr (Or.inl ?_)
        simp [sendVideoStage, hd, hok]
    · refine Or.inl ?_
      simp [sendVideoStage, hd]

theorem audioStage_cases (o : TgOrc) (cap : Option String) (audios : List FPath)
    (sent gcu : Bool) :
    sendAudioStage o cap audios sent gcu = ([], sent, false) ∨
    sendAudioStage o cap audios sent gcu = ([], sent, true) ∨
    (∃ a c', audios.head? = some a ∧
      sendAudioStage o cap audios sent gcu = ([SendEvent.audioMsg a c'], true, false) ∧
      (truthy c' = true → sent = false ∧ gcu = false ∧ c' = cap)) := by
  match audios with
  | [] => exact Or.inl rfl
  | a :: rest =>
    by_cases hd : o.onDisk a = true
    · by_cases hok : o.audioOk = true
      · by_cases hsg : (sent || gcu) = true
        · refine Or.inr (Or.inr ⟨a, none, rfl, ?_, ?_⟩)
          · simp [sendAudioStage, hd, hok, hsg]
          · intro ht; simp [truthy] at ht
        · have hsg' : (sent || gcu) = false := by
            revert hsg; cases h : (sent || gcu) <;> simp
          have hs : sent = false ∧ gcu = false := by
            cases sent <;> cases gcu <;> simp_all
          refine Or.inr (Or.inr ⟨a, cap, rfl, ?_, ?_⟩)
          · simp [sendAudioStage, hd, hok, hsg']
          · intro _; exact ⟨hs.1, hs.2, rfl⟩
      · refine Or.inr (Or.inl ?_)
        simp [sendAudioStage, hd, hok]
    · refine Or.inl ?_
      simp [sendAudioStage, hd]

theorem sortByKey_mem {α : Type} {key : α → Nat} {x : α} {l : List α} :
    x ∈ sortByKey key l ↔ x ∈ l := sortStable_mem

/-- C8 amended: photos are sent as one post (a grouped album capped at 10
items when there are several, with the caption carried only by the first
item; a lone photo as a single captioned photo); only the first video of the
list is sent, carrying the caption only if no photo post was delivered
before it; only the first audio is sent under the same rule; and the return
value is true exactly when at least one item was sent AND no Telegram call
raised — an error after a successful partial send yields false. -/
theorem c8_amended (o : TgOrc) (files : List FPath) (cap : Option String)
    (out : SendOut) (hout : send_downloaded_media o files cap = out) :
    ((out.events.filter isPhotoPost).length ≤ 1 ∧
      (out.events.filter isVideoEvent).length ≤ 1 ∧
      (out.events.filter isAudioEvent).length ≤ 1) ∧
    (∀ items, SendEvent.mediaGroup items ∈ out.events →
      items.length ≤ 10 ∧
      (∀ pr ∈ items, pr.1 ∈ files ∧ isImageFile pr.1 = true) ∧
      (∀ pr ∈ items.tail, pr.2 = none) ∧
      (∀ pr ∈ items, pr.2 ≠ none → items.head? = some pr ∧ pr.2 = cap)) ∧
    (∀ p c', SendEvent.photo p c' ∈ out.events →
      c' = cap ∧ p ∈ files ∧ isImageFile p = true ∧
        (files.filter isImageFile).length = 1) ∧
    (∀ p c', SendEvent.video p c' ∈ out.events →
      (files.filter isVideoFile).head? = some p ∧
      (truthy c' = true → c' = cap ∧ ∀ e ∈ out.events, isPhotoPost e = false)) ∧
    (∀ p c', SendEvent.audioMsg p c' ∈ out.events →
      (files.filter isAudioFile).head? = some p ∧
      (truthy c' = true → c' = cap ∧
        ∀ e ∈ out.events, isPhotoPost e = false ∧ isVideoEvent e = false)) ∧
    out.result = (!out.raised && !out.events.isEmpty) := by
  unfold send_downloaded_media at hout
  by_cases hemp : files.isEmpty = true
  · rw [if_pos hemp] at hout
    subst hout
    simp
  · rw [if_neg hemp] at hout
    dsimp only at hout
    rcases imagesStage_cases o cap
        (sortByKey MediaProcessing.extract_filename_index (files.filter isImageFile)) with
      ⟨g, h1⟩ | ⟨g, h1⟩ | ⟨g, hlen, h1⟩ | ⟨img, himg, h1⟩
    -- CASE A: image stage sent nothing, no raise
    · rw [h1] at hout
      dsimp only at hout
      rw [if_neg Bool.false_ne_true] at hout
      rcases videoStage_cases o cap (files.filter isVideoFile) false g with
        h2 | h2 | ⟨v, cv, hv, h2, hvimp⟩
      · rw [h2] at hout
        dsimp only at hout
        rw [if_neg Bool.false_ne_true] at hout
        rcases audioStage_cases o cap (files.filter isAudioFile) false g with
          h3 | h3 | ⟨a, ca, ha, h3, haimp⟩
        · rw [h3] at hout
          dsimp only at hout
          rw [if_neg Bool.false_ne_true] at hout
          subst hout
          simp
        · rw [h3] at hout
          dsimp only at hout
          rw [if_pos rfl] at hout
          subst hout
          simp
        · rw [h3] at hout
          dsimp only at hout
          rw [if_neg Bool.false_ne_true] at hout
          subst hout
          refine ⟨by simp [isPhotoPost, isVideoEvent, isAudioEvent], ?_, ?_, ?_, ?_, ?_⟩
          · intro items hm; simp at hm
          · intro p c' hm; simp at hm
          · intro p c' hm; simp at hm
          · intro p c' hm
            simp only [List.nil_append, List.mem_singleton, SendEvent.audioMsg.injEq] at hm
            obtain ⟨rfl, rfl⟩ := hm
            refine ⟨ha, ?_⟩
            intro ht
            refine ⟨(haimp ht).2.2, ?_⟩
            intro e he
            simp only [List.nil_append, List.mem_singleton] at he
            subst he
            simp [isPhotoPost, isVideoEvent]
          · simp
      · rw [h2] at hout
        dsimp only at hout
        rw [if_pos rfl] at hout
        subst hout
        simp
      · rw [h2] at hout
        dsimp only at hout
        rw [if_neg Bool.false_ne_true] at hout
        rcases audioStage_cases o cap (files.filter isAudioFile) true g with
          h3 | h3 | ⟨a, ca, ha, h3, haimp⟩
        · rw [h3] at hout
          dsimp only at hout
          rw [if_neg Bool.false_ne_true] at hout
          subst hout
          refine ⟨by simp [isPhotoPost, isVideoEvent, isAudioEvent], ?_, ?_, ?_, ?_, ?_⟩
          · intro items hm; simp at hm
          · intro p c' hm; simp at hm
          · intro p c' hm
            simp only [List.nil_append, List.append_nil, List.mem_singleton,
              SendEvent.video.injEq] at hm
            obtain ⟨rfl, rfl⟩ := hm
            refine ⟨hv, ?_⟩
            intro ht
            refine ⟨(hvimp ht).2.2, ?_⟩
            intro e he
            simp only [List.nil_append, List.append_nil, List.mem_singleton] at he
            subst he
            simp [isPhotoPost]
          · intro p c' hm; simp at hm
          · simp
        · rw [h3] at hout
          dsimp only at hout
          rw [if_pos rfl] at hout
          subst hout
          refine ⟨by simp [isPhotoPost, isVideoEvent, isAudioEvent], ?_, ?_, ?_, ?_, ?_⟩
          · intro items hm; simp at hm
          · intro p c' hm; simp at hm
          · intro p c' hm
            simp only [List.nil_append, List.append_nil, List.mem_singleton,
              SendEvent.video.injEq] at hm
            obtain ⟨rfl, rfl⟩ := hm
            refine ⟨hv, ?_⟩
            intro ht
            refine ⟨(hvimp ht).2.2, ?_⟩
            intro e he
            simp only [List.nil_append, List.append_nil, List.mem_singleton] at he
            subst he
            simp [isPhotoPost]
          · intro p c' hm; simp at hm
          · simp
        · rw [h3] at hout
          dsimp only at hout
          rw [if_neg Bool.false_ne_true] at hout
          subst hout
          refine ⟨by simp [isPhotoPost, isVideoEvent, isAudioEvent], ?_, ?_, ?_, ?_, ?_⟩
          · intro items hm; simp at hm
          · intro p c' hm; simp at hm
          · intro p c' hm
            simp only [List.nil_append, List.mem_append, List.mem_singleton,
              SendEvent.video.injEq] at hm
            rcases hm with ⟨rfl, rfl⟩ | hm
            · refine ⟨hv, ?_⟩
              intro ht
              refine ⟨(hvimp ht).2.2, ?_⟩
              intro e he
              simp only [List.nil_append, List.mem_append, List.mem_singleton] at he
              rcases he with rfl | rfl <;> simp [isPhotoPost]
            · simp at hm
          · intro p c' hm
            simp only [List.nil_append, List.mem_append, List.mem_singleton,
              SendEvent.audioMsg.injEq] at hm
            rcases hm with hm | ⟨rfl, rfl⟩
            · simp at hm
            · refine ⟨ha, ?_⟩
              intro ht
              exact absurd (haimp ht).1 (by simp)
          · simp
    -- CASE B: image stage raised
    · rw [h1] at hout
      dsimp only at hout
      rw [if_pos rfl] at hout
      subst hout
      simp
    -- CASE C: media group sent
    · rw [h1] at hout
      dsimp only at hout
      rw [if_neg Bool.false_ne_true] at hout
      have hlen10 : (buildGroupItems o.onDisk cap
          ((sortByKey MediaProcessing.extract_filename_index
            (files.filter isImageFile)).take 10)).length ≤ 10 := by
        have haux : (buildGroupItemsAux o.onDisk cap 0
            ((sortByKey MediaProcessing.extract_filename_index
              (files.filter isImageFile)).take 10)).length ≤
            ((sortByKey MediaProcessing.extract_filename_index
              (files.filter isImageFile)).take 10).length :=
          buildGroupItemsAux_length _ _ _ 0
        refine le_trans haux ?_
        rw [List.length_take]
        exact Nat.min_le_left _ _
      have hmemitems : ∀ pr ∈ buildGroupItems o.onDisk cap
          ((sortByKey MediaProcessing.extract_filename_index
            (files.filter isImageFile)).take 10),
          pr.1 ∈ files ∧ isImageFile pr.1 = true := by
        intro pr hpr
        have hpr' : pr ∈ buildGroupItemsAux o.onDisk cap 0
            ((sortByKey MediaProcessing.extract_filename_index
              (files.filter isImageFile)).take 10) := hpr
        have h1' := buildGroupItemsAux_fst_mem hpr'
        have h2' := List.mem_of_mem_take h1'
        have h3' : pr.1 ∈ files.filter isImageFile := sortByKey_mem.mp h2'
        exact List.mem_filter.mp h3'
      have htail : ∀ pr ∈ (buildGroupItems o.onDisk cap
          ((sortByKey MediaProcessing.extract_filename_index
            (files.filter isImageFile)).take 10)).tail, pr.2 = none :=
        fun pr hpr => buildGroupItems_tail_none hpr
      have hcapf : ∀ pr ∈ buildGroupItems o.onDisk cap
          ((sortByKey MediaProcessing.extract_filename_index
            (files.filter isImageFile)).take 10),
          pr.2 ≠ none → (buildGroupItems o.onDisk cap
            ((sortByKey MediaProcessing.extract_filename_index
              (files.filter isImageFile)).take 10)).head? = some pr ∧ pr.2 = cap :=
        fun pr hpr hne => buildGroupItems_caption hpr hne
      rcases videoStage_cases o cap (files.filter isVideoFile) true g with
        h2 | h2 | ⟨v, cv, hv, h2, hvimp⟩
      · rw [h2] at hout
        dsimp only at hout
        rw [if_neg Bool.false_ne_true] at hout
        rcases audioStage_cases o cap (files.filter isAudioFile) true g with
          h3 | h3 | ⟨a, ca, ha, h3, haimp⟩
        · rw [h3] at hout
          dsimp only at hout
          rw [if_neg Bool.false_ne_true] at hout
          subst hout
          refine ⟨by simp [isPhotoPost, isVideoEvent, isAudioEvent], ?_, ?_, ?_, ?_, ?_⟩
          · intro items' hm
            simp at hm
            subst hm
            exact ⟨hlen10, hmemitems, htail, hcapf⟩
          · intro p c' hm; simp at hm
          · intro p c' hm; simp at hm
          · intro p c' hm; simp at hm
          · simp
        · rw [h3] at hout
          dsimp only at hout
          rw [if_pos rfl] at hout
          subst hout
          refine ⟨by simp [isPhotoPost, isVideoEvent, isAudioEvent], ?_, ?_, ?_, ?_, ?_⟩
          · intro items' hm
            simp at hm
            subst hm
            exact ⟨hlen10, hmemitems, htail, hcapf⟩
          · intro p c' hm; simp at hm
          · intro p c' hm; simp at hm
          · intro p c' hm; simp at hm
          · simp
        · rw [h3] at hout
          dsimp only at hout
          rw [if_neg Bool.false_ne_true] at hout
          subst hout
          refine ⟨by simp [isPhotoPost, isVideoEvent, isAudioEvent], ?_, ?_, ?_, ?_, ?_⟩
          · intro items' hm
            simp at hm
            subst hm
            exact ⟨hlen10, hmemitems, htail, hcapf⟩
          · intro p c' hm; simp at hm
          · intro p c' hm; simp at hm
          · intro p c' hm
            simp at hm
            obtain ⟨rfl, rfl⟩ := hm
            refine ⟨ha, ?_⟩
            intro ht
            exact absurd (haimp ht).1 (by simp)
          · simp
      · rw [h2] at hout
        dsimp only at hout
        rw [if_pos rfl] at hout
        subst hout
        refine ⟨by simp [isPhotoPost, isVideoEvent, isAudioEvent], ?_, ?_, ?_, ?_, ?_⟩
        · intro items' hm
          simp at hm
          subst hm
          exact ⟨hlen10, hmemitems, htail, hcapf⟩
        · intro p c' hm; simp at hm
        · intro p c' hm; simp at hm
        · intro p c' hm; simp at hm
        · simp
      · rw [h2] at hout
        dsimp only at hout
        rw [if_neg Bool.false_ne_true] at hout
        rcases audioStage_cases o cap (files.filter isAudioFile) true g with
          h3 | h3 | ⟨a, ca, ha, h3, haimp⟩
        · rw [h3] at hout
          dsimp only at hout
          rw [if_neg Bool.false_ne_true] at hout
          subst hout
          refine ⟨by simp [isPhotoPost, isVideoEvent, isAudioEvent], ?_, ?_, ?_, ?_, ?_⟩
          · intro items' hm
            simp at hm
            subst hm
            exact ⟨hlen10, hmemitems, htail, hcapf⟩
          · intro p c' hm; simp at hm
          · intro p c' hm
            simp at hm
            obtain ⟨rfl, rfl⟩ := hm
            refine ⟨hv, ?_⟩
            intro ht
            exact absurd (hvimp ht).1 (by simp)
          · intro p c' hm; simp at hm
          · simp
        · rw [h3] at hout
          dsimp only at hout
          rw [if_pos rfl] at hout
          subst hout
          refine ⟨by simp [isPhotoPost, isVideoEvent, isAudioEvent], ?_, ?_, ?_, ?_, ?_⟩
          · intro items' hm
            simp at hm
            subst hm
            exact ⟨hlen10, hmemitems, htail, hcapf⟩
          · intro p c' hm; simp at hm
          · intro p c' hm
            simp at hm
            obtain ⟨rfl, rfl⟩ := hm
            refine ⟨hv, ?_⟩
            intro ht
            exact absurd (hvimp ht).1 (by simp)
          · intro p c' hm; simp at hm
          · simp
        · rw [h3] at hout
          dsimp only at hout
          rw [if_neg Bool.false_ne_true] at hout
          subst hout
          refine ⟨by simp [isPhotoPost, isVideoEvent, isAudioEvent], ?_, ?_, ?_, ?_, ?_⟩
          · intro items' hm
            simp at hm
            subst hm
            exact ⟨hlen10, hmemitems, htail, hcapf⟩
          · intro p c' hm; simp at hm
          · intro p c' hm
            simp at hm
            obtain ⟨rfl, rfl⟩ := hm
            refine ⟨hv, ?_⟩
            intro ht
            exact absurd (hvimp ht).1 (by simp)
          · intro p c' hm
            simp at hm
            obtain ⟨rfl, rfl⟩ := hm
            refine ⟨ha, ?_⟩
            intro ht
            exact absurd (haimp ht).1 (by simp)
          · simp
    -- CASE D: single photo sent
    · rw [h1] at hout
      dsimp only at hout
      rw [if_neg Bool.false_ne_true] at hout
      have himgmem : img ∈ files ∧ isImageFile img = true := by
        have h2' : img ∈ sortByKey MediaProcessing.extract_filename_index
            (files.filter isImageFile) := by
          rw [himg]; exact List.mem_singleton_self img
        exact List.mem_filter.mp (sortByKey_mem.mp h2')
      have hflen : (files.filter isImageFile).length = 1 := by
        have hsl := sortByKey_length MediaProcessing.extract_filename_index
          (files.filter isImageFile)
        rw [himg] at hsl
        exact hsl.symm
      rcases videoStage_cases o cap (files.filter isVideoFile) true false with
        h2 | h2 | ⟨v, cv, hv, h2, hvimp⟩
      · rw [h2] at hout
        dsimp only at hout
        rw [if_neg Bool.false_ne_true] at hout
        rcases audioStage_cases o cap (files.filter isAudioFile) true false with
          h3 | h3 | ⟨a, ca, ha, h3, haimp⟩
        · rw [h3] at hout
          dsimp only at hout
          rw [if_neg Bool.false_ne_true] at hout
          subst hout
          refine ⟨by simp [isPhotoPost, isVideoEvent, isAudioEvent], ?_, ?_, ?_, ?_, ?_⟩
          · intro items' hm; simp at hm
          · intro p c' hm
            simp at hm
            obtain ⟨rfl, rfl⟩ := hm
            exact ⟨rfl, himgmem.1, himgmem.2, hflen⟩
          · intro p c' hm; simp at hm
          · intro p c' hm; simp at hm
          · simp
        · rw [h3] at hout
          dsimp only at hout
          rw [if_pos rfl] at hout
          subst hout
          refine ⟨by simp [isPhotoPost, isVideoEvent, isAudioEvent], ?_, ?_, ?_, ?_, ?_⟩
          · intro items' hm; simp at hm
          · intro p c' hm
            simp at hm
            obtain ⟨rfl, rfl⟩ := hm
            exact ⟨rfl, himgmem.1, himgmem.2, hflen⟩
          · intro p c' hm; simp at hm
          · intro p c' hm; simp at hm
          · simp
        · rw [h3] at hout
          dsimp only at hout
          rw [if_neg Bool.false_ne_true] at hout
          subst hout
          refine ⟨by simp [isPhotoPost, isVideoEvent, isAudioEvent], ?_, ?_, ?_, ?_, ?_⟩
          · intro items' hm; simp at hm
          · intro p c' hm
            simp at hm
            obtain ⟨rfl, rfl⟩ := hm
            exact ⟨rfl, himgmem.1, himgmem.2, hflen⟩
          · intro p c' hm; simp at hm
          · intro p c' hm
            simp at hm
            obtain ⟨rfl, rfl⟩ := hm
            refine ⟨ha, ?_⟩
            intro ht
            exact absurd (haimp ht).1 (by simp)
          · simp
      · rw [h2] at hout
        dsimp only at hout
        rw [if_pos rfl] at hout
        subst hout
        refine ⟨by simp [isPhotoPost, isVideoEvent, isAudioEvent], ?_, ?_, ?_, ?_, ?_⟩
        · intro items' hm; simp at hm
        · intro p c' hm
          simp at hm
          obtain ⟨rfl, rfl⟩ := hm
          exact ⟨rfl, himgmem.1, himgmem.2, hflen⟩
        · intro p c' hm; simp at hm
        · intro p c' hm; simp at hm
        · simp
      · rw [h2] at hout
        dsimp only at hout
        rw [if_neg Bool.false_ne_true] at hout
        rcases audioStage_cases o cap (files.filter isAudioFile) true false with
          h3 | h3 | ⟨a, ca, ha, h3, haimp⟩
        · rw [h3] at hout
          dsimp only at hout
          rw [if_neg Bool.false_ne_true] at hout
          subst hout
          refine ⟨by simp [isPhotoPost, isVideoEvent, isAudioEvent], ?_, ?_, ?_, ?_, ?_⟩
          · intro items' hm; simp at hm
          · intro p c' hm
            simp at hm
            obtain ⟨rfl, rfl⟩ := hm
            exact ⟨rfl, himgmem.1, himgmem.2, hflen⟩
          · intro p c' hm
            simp at hm
            obtain ⟨rfl, rfl⟩ := hm
            refine ⟨hv, ?_⟩
            intro ht
            exact absurd (hvimp ht).1 (by simp)
          · intro p c' hm; simp at hm
          · simp
        · rw [h3] at hout
          dsimp only at hout
          rw [if_pos rfl] at hout
          subst hout
          refine ⟨by simp [isPhotoPost, isVideoEvent, isAudioEvent], ?_, ?_, ?_, ?_, ?_⟩
          · intro items' hm; simp at hm
          · intro p c' hm
            simp at hm
            obtain ⟨rfl, rfl⟩ := hm
            exact ⟨rfl, himgmem.1, himgmem.2, hflen⟩
          · intro p c' hm
            simp at hm
            obtain ⟨rfl, rfl⟩ := hm
            refine ⟨hv, ?_⟩
            intro ht
            exact absurd (hvimp ht).1 (by simp)
          · intro p c' hm; simp at hm
          · simp
        · rw [h3] at hout
          dsimp only at hout
          rw [if_neg Bool.false_ne_true] at hout
          subst hout
          refine ⟨by simp [isPhotoPost, isVideoEvent, isAudioEvent], ?_, ?_, ?_, ?_, ?_⟩
          · intro items' hm; simp at hm
          · intro p c' hm
            simp at hm
            obtain ⟨rfl, rfl⟩ := hm
            exact ⟨rfl, himgmem.1, himgmem.2, hflen⟩
          · intro p c' hm
            simp at hm
            obtain ⟨rfl, rfl⟩ := hm
            refine ⟨hv, ?_⟩
            intro ht
            exact absurd (hvimp ht).1 (by simp)
          · intro p c' hm
            simp at hm
            obtain ⟨rfl, rfl⟩ := hm
            refine ⟨ha, ?_⟩
            intro ht
            exact absurd (haimp ht).1 (by simp)
          · simp

def c8wOrc : TgOrc := ⟨fun _ => true, true, true, true, true⟩

def c8wOut : SendOut :=
  ⟨[SendEvent.mediaGroup [(⟨"1", ".jpg"⟩, some "c"), (⟨"2", ".jpg"⟩, none)],
    SendEvent.video ⟨"v", ".mp4"⟩ none], false, true⟩

/-- C8 amended, witness: with every call succeeding, the run on two photos
and a video delivers the captioned group then the uncaptioned video and
returns true; the amended theorem's return-value clause evaluates on it. -/
theorem c8_amended_witness :
    (send_downloaded_media c8wOrc c8files (some "c") = c8wOut) ∧
    c8wOut.result = (!c8wOut.raised && !c8wOut.events.isEmpty) :=
  ⟨by decide, (c8_amended c8wOrc c8files (some "c") c8wOut (by decide)).2.2.2.2.2⟩

/-! ## process_link (handlers/message_handlers.py lines 38-348)

The pipeline is one Python function; its external calls (initial status
message, the two downloaders, the duration probe, the two ffmpeg steps, the
send, the file-size stat) are oracle inputs.  Message edits for phase changes
(lines 100-112, 138-149, 194-202, 230-243) sit inside their own
`try/except Exception` blocks and cannot alter control flow; the downloaders,
per their own models above, either return a DownloadResult or (yt-dlp only)
raise NonVideoContentError, so the outer `except Exception` (line 293) is
reachable from the initial send and the `f.stat()` size probe of line 278. -/

/-- The float literal `0.1` of message_handlers.py line 152, as the exact
rational 1/10 (built without normalization so it evaluates in the kernel;
no claim depends on the 5.5e-18 gap to the IEEE float). -/
def pointOne : ℚ := ⟨1, 10, by norm_num, Nat.coprime_one_left 10⟩

/-- The user-facing terminal messages process_link can construct.  The
`ambiguousSignal` constructor is what displaying a NonVideoContentError's
text would be; C2 asserts it is never produced. -/
inductive UserMsg where
  | fromPrimary (e : String)
  | failedAlternative (e : String)
  | tooLarge
  | sendFailed
  | unknownReason
  | internalError
  | unexpectedError
  | ambiguousSignal (detail : String)
deriving DecidableEq, Repr

/-- Outcome of the initial `context.bot.send_message` (lines 70-74): a
message object, a falsy return (early `return`), or an exception (caught by
the outer handler). -/
inductive InitSend where
  | ok
  | falsy
  | raises
deriving DecidableEq, Repr

/-- Outcome of `download_media_yt_dlp` at its call site: per its model above
it either returns a DownloadResult or raises NonVideoContentError. -/
inductive YtdlpCall where
  | returns (r : DownloadResult)
  | raisesNonVideo (detail : String)
deriving DecidableEq, Repr

/-- Oracle for one process_link run.  `gallery` is the DownloadResult of
`download_gallery_dl` (which, per its model, always returns);
`conversionOutExists`/`processedOutExists` are the `exists()` probes on the
ffmpeg output paths (allowing half-written outputs of failed runs);
`statRaises` models an OSError from the `f.stat()` size probe on line 278. -/
structure POrc where
  initSend : InitSend
  ytdlp : YtdlpCall
  gallery : DownloadResult
  audio_duration : Option ℚ
  conversion_success : Bool
  conversionOutExists : Bool
  processing_success : Bool
  processedOutExists : Bool
  media_sent : Bool
  statRaises : Bool
  filesTooLarge : Bool
deriving DecidableEq, Repr

/-- Final state of the status message (finally block, lines 315-344): deleted
after a successful send (line 273), rewritten in place with the failure text,
replaced by a new message when the original is gone, left with its last
intermediate text when no final message was set, or never created. -/
inductive StatusEnd where
  | deleted
  | rewritten (m : UserMsg)
  | newMessage (m : UserMsg)
  | leftAsIs
  | noMessage
deriving DecidableEq, Repr

/-- Observables of the run just before the finally block:
`tracked` is `all_files_to_cleanup`, `galleryUrls` the arguments of the
`download_gallery_dl` calls made, `composerCalls` the number of entries into
the slideshow-composition step (the images-and-audio branch, line 132),
`slideshowCalls` the number of `create_slideshow_video` invocations,
`procCalls` the number of `process_video_for_telegram` invocations,
`sendArg` the file list handed to `send_downloaded_media` (none if never
called). -/
structure BodyOut where
  tracked : List FPath
  finalMsg : Option UserMsg
  mediaSent : Bool
  msgAlive : Bool
  galleryUrls : List String
  composerCalls : Nat
  slideshowCalls : Nat
  procCalls : Nat
  sendArg : Option (List FPath)
deriving DecidableEq, Repr

structure RunResult where
  cleanupArg : List FPath
  tracked : List FPath
  finalMsg : Option UserMsg
  statusEnd : StatusEnd
  galleryUrls : List String
  composerCalls : Nat
  slideshowCalls : Nat
  procCalls : Nat
  sendArg : Option (List FPath)
  mediaSent : Bool
deriving DecidableEq, Repr

/-- `all_files_to_cleanup.extend(list(set(new) - set(tracked)))` (line 117);
the arbitrary iteration order of the Python set is modelled as
first-occurrence order (all claims about the tracked list are
multiplicity-based). -/
def setDiffExtend (tracked new : List FPath) : List FPath :=
  tracked ++ new.dedup.filter (fun p => decide (p ∉ tracked))

/-- Output path of the slideshow conversion (lines 153-158):
`video_gen_{audio stem}.mp4`; the `while exists()` collision loop terminates
at a fresh name and is modelled as collision-free. -/
def genVideoPath (audio_path : FPath) : FPath :=
  ⟨"video_gen_" ++ audio_path.stem, ".mp4"⟩

/-- Output path of the Telegram optimization step (lines 204-209). -/
def processedVideoPath (v : FPath) : FPath := ⟨v.stem ++ "_processed", ".mp4"⟩

structure ConvOut where
  dr : DownloadResult
  tracked : List FPath
  composerCalls : Nat
  slideshowCalls : Nat
deriving DecidableEq, Repr

/-- The slideshow-conversion step (lines 125-178), entered after a successful
gallery-dl fallback: sort the images with media_processing's extractor,
probe the audio duration, and on `duration > 0.1` run the conversion; on
success the result's file list becomes the single generated video; a
half-written output of a failed conversion is appended to the tracked list
if not already present (lines 170-174). -/
def slideshowStep (ffmpegAvailable convertSlideshow : Bool) (o : POrc)
    (g : DownloadResult) (tracked0 : List FPath) : ConvOut :=
  if ffmpegAvailable && convertSlideshow && !g.media_files.isEmpty then
    let images := sortByKey MediaProcessing.extract_filename_index
      (g.media_files.filter isImageFile)
    let audios := g.media_files.filter isAudioFile
    if !images.isEmpty && !audios.isEmpty then
      let audio_path := audios.headD ⟨"", ""⟩
      match o.audio_duration with
      | some dsecs =>
        if pointOne < dsecs then
          let video_filename := genVideoPath audio_path
          if o.conversion_success && o.conversionOutExists then
            ⟨{ g with media_files := [video_filename], is_slideshow := false },
              tracked0 ++ [video_filename], 1, 1⟩
          else if o.conversionOutExists && decide (video_filename ∉ tracked0) then
            ⟨g, tracked0 ++ [video_filename], 1, 1⟩
          else ⟨g, tracked0, 1, 1⟩
        else ⟨g, tracked0, 1, 0⟩
      | none => ⟨g, tracked0, 1, 0⟩
    else ⟨g, tracked0, 0, 0⟩
  else ⟨g, tracked0, 0, 0⟩

structure SendStage where
  tracked : List FPath
  finalMsg : Option UserMsg
  mediaSent : Bool
  msgAlive : Bool
  procCalls : Nat
  sendArg : Option (List FPath)
deriving DecidableEq, Repr

/-- Lines 180-291: when the download succeeded with files and no failure
message is pending, optimize the first video (if ffmpeg is available) and
send; on a successful send delete the status message; otherwise choose the
too-large or generic send-failure message (the size probe may raise, hitting
the outer handler).  The `elif` arms of lines 284-291 supply the fallback
failure messages. -/
def sendStep (ffmpegAvailable : Bool) (o : POrc) (finalMsg0 : Option UserMsg)
    (drOpt : Option DownloadResult) (tracked0 : List FPath) : SendStage :=
  match drOpt with
  | some dr =>
    if finalMsg0.isNone && dr.success && !dr.media_files.isEmpty then
      let afterOpt :=
        if ffmpegAvailable then
          match dr.media_files.find? isNonImageAudioMedia with
          | some v =>
            let pp := processedVideoPath v
            if o.processing_success && o.processedOutExists then
              ({ dr with media_files := [pp] }, tracked0 ++ [pp], 1)
            else if o.processedOutExists && decide (pp ∉ tracked0) then
              (dr, tracked0 ++ [pp], 1)
            else (dr, tracked0, 1)
          | none => (dr, tracked0, 0)
        else (dr, tracked0, 0)
      match afterOpt with
      | (dr1, tr1, pc) =>
        if o.media_sent then
          ⟨tr1, finalMsg0, true, false, pc, some dr1.media_files⟩
        else if o.statRaises then
          ⟨tr1, some UserMsg.unexpectedError, false, true, pc, some dr1.media_files⟩
        else if o.filesTooLarge then
          ⟨tr1, some UserMsg.tooLarge, false, true, pc, some dr1.media_files⟩
        else
          ⟨tr1, some UserMsg.sendFailed, false, true, pc, some dr1.media_files⟩
    else if finalMsg0.isNone && !dr.success then
      ⟨tracked0, some UserMsg.unknownReason, false, true, 0, none⟩
    else
      ⟨tracked0, finalMsg0, false, true, 0, none⟩
  | none =>
    if finalMsg0.isNone then
      ⟨tracked0, some UserMsg.internalError, false, true, 0, none⟩
    else
      ⟨tracked0, finalMsg0, false, true, 0, none⟩

/-- The try/except body of process_link (lines 61-296) as a function of the
oracle, producing the state the finally block sees. -/
def runBody (url : String) (ffmpegAvailable convertSlideshow : Bool)
    (o : POrc) : BodyOut :=
  match o.initSend with
  | InitSend.raises =>
    ⟨[], some UserMsg.unexpectedError, false, false, [], 0, 0, 0, none⟩
  | InitSend.falsy =>
    ⟨[], none, false, false, [], 0, 0, 0, none⟩
  | InitSend.ok =>
    match o.ytdlp with
    | YtdlpCall.returns r =>
      let tracked1 := if !r.media_files.isEmpty then [] ++ r.media_files else []
      let finalMsg1 : Option UserMsg :=
        if !r.success then
          match r.error_message with
          | some e => some (UserMsg.fromPrimary e)
          | none => none
        else none
      let s := sendStep ffmpegAvailable o finalMsg1 (some r) tracked1
      ⟨s.tracked, s.finalMsg, s.mediaSent, s.msgAlive, [], 0, 0, s.procCalls, s.sendArg⟩
    | YtdlpCall.raisesNonVideo _ =>
      let g := o.gallery
      let tracked1 := setDiffExtend [] g.media_files
      if !g.success then
        let e := g.error_message.getD "Failed alternative download."
        let s := sendStep ffmpegAvailable o (some (UserMsg.failedAlternative e))
          (some g) tracked1
        ⟨s.tracked, s.finalMsg, s.mediaSent, s.msgAlive, [url], 0, 0,
          s.procCalls, s.sendArg⟩
      else
        let c := slideshowStep ffmpegAvailable convertSlideshow o g tracked1
        let s := sendStep ffmpegAvailable o none (some c.dr) c.tracked
        ⟨s.tracked, s.finalMsg, s.mediaSent, s.msgAlive, [url], c.composerCalls,
          c.slideshowCalls, s.procCalls, s.sendArg⟩

/-- The finally block (lines 300-348): stop the animation task, finalize the
status message, then `unique_files_to_cleanup = list(set(all_files_to_cleanup))`
and hand it to `_cleanup_media_files` (lines 346-347). -/
def applyFinally (b : BodyOut) : RunResult :=
  ⟨b.tracked.dedup, b.tracked, b.finalMsg,
    (if b.mediaSent then StatusEnd.deleted
     else
       match b.finalMsg with
       | some m => if b.msgAlive then StatusEnd.rewritten m else StatusEnd.newMessage m
       | none => if b.msgAlive then StatusEnd.leftAsIs else StatusEnd.noMessage),
    b.galleryUrls, b.composerCalls, b.slideshowCalls, b.procCalls, b.sendArg,
    b.mediaSent⟩

/-- `handlers/message_handlers.py::process_link` as a function of its
oracle. -/
def process_link (url : String) (ffmpegAvailable convertSlideshow : Bool)
    (o : POrc) : RunResult :=
  applyFinally (runBody url ffmpegAvailable convertSlideshow o)

/-! ## _cleanup_media_files (utils/file_cleanup.py lines 11-55) -/

/-- Filesystem view at cleanup time: `exists()` and `is_file()` per path. -/
structure FsView where
  onDisk : FPath → Bool
  isFileAt : FPath → Bool

/-- What `_cleanup_media_files` does with one listed path. -/
inductive CleanupAct where
  | attemptedDelete (p : FPath)
  | skippedNotFile (p : FPath)
  | skippedMissing (p : FPath)
deriving DecidableEq, Repr

/-- `utils/file_cleanup.py::_cleanup_media_files` (lines 29-52): exactly one
`unlink` attempt per listed path that exists and is a regular file; existing
non-files and missing paths are skipped.  (The `isinstance` guard of line 31
never fires: every element handed over is a Path.) -/
def cleanup_media_files (fs : FsView) (media_files : List FPath) : List CleanupAct :=
  media_files.map (fun p =>
    if fs.onDisk p && fs.isFileAt p then CleanupAct.attemptedDelete p
    else if fs.onDisk p then CleanupAct.skippedNotFile p
    else CleanupAct.skippedMissing p)

theorem cleanup_attempt_count (fs : FsView) (p : FPath) :
    ∀ (l : List FPath),
      (cleanup_media_files fs l).count (CleanupAct.attemptedDelete p) =
        if fs.onDisk p && fs.isFileAt p then l.count p else 0 := by
  intro l
  induction l with
  | nil => simp [cleanup_media_files]
  | cons q qs ih =>
    unfold cleanup_media_files at ih ⊢
    rw [List.map_cons]
    by_cases hdel : (fs.onDisk q && fs.isFileAt q) = true
    · rw [if_pos hdel]
      by_cases hqp : q = p
      · subst hqp
        rw [List.count_cons_self, ih, if_pos hdel, if_pos hdel, List.count_cons_self]
      · have hne : CleanupAct.attemptedDelete p ≠ CleanupAct.attemptedDelete q := by
          intro h
          injection h with h'
          exact hqp h'.symm
        rw [List.count_cons_of_ne hne, ih]
        by_cases hdp : (fs.onDisk p && fs.isFileAt p) = true
        · rw [if_pos hdp, if_pos hdp,
            List.count_cons_of_ne (fun h => hqp h.symm)]
        · rw [if_neg hdp, if_neg hdp]
    · rw [if_neg hdel]
      have hne : (if fs.onDisk q = true then CleanupAct.skippedNotFile q
          else CleanupAct.skippedMissing q) ≠ CleanupAct.attemptedDelete p := by
        split <;> simp
      rw [List.count_cons_of_ne (Ne.symm hne), ih]
      by_cases hqp : q = p
      · subst hqp
        rw [if_neg hdel, if_neg hdel]
      · by_cases hdp : (fs.onDisk p && fs.isFileAt p) = true
        · rw [if_pos hdp, if_pos hdp, List.count_cons_of_ne (fun h => hqp h.symm)]
        · rw [if_neg hdp, if_neg hdp]

/-- C1: for every pipeline run (over all oracle outcomes, including the
exception paths and the half-written outputs of failed intermediate steps
that the model appends to the tracked list), the list handed to the cleanup
routine is exactly the tracked list deduplicated by path: every tracked path
occurs exactly once in it, untracked paths not at all, and the cleanup
routine then attempts at most one deletion per path — exactly one for each
tracked path that exists as a file. -/
theorem c1_cleanup_exactly_once (url : String) (ffA convS : Bool) (o : POrc) :
    ((process_link url ffA convS o).cleanupArg =
      (process_link url ffA convS o).tracked.dedup) ∧
    (∀ p : FPath, p ∈ (process_link url ffA convS o).tracked →
      (process_link url ffA convS o).cleanupArg.count p = 1) ∧
    (∀ p : FPath, p ∉ (process_link url ffA convS o).tracked →
      (process_link url ffA convS o).cleanupArg.count p = 0) ∧
    (∀ (fs : FsView) (p : FPath),
      (cleanup_media_files fs (process_link url ffA convS o).cleanupArg).count
          (CleanupAct.attemptedDelete p) ≤ 1 ∧
      (p ∈ (process_link url ffA convS o).tracked →
        (fs.onDisk p && fs.isFileAt p) = true →
        (cleanup_media_files fs (process_link url ffA convS o).cleanupArg).count
          (CleanupAct.attemptedDelete p) = 1)) := by
  have h1 : (process_link url ffA convS o).cleanupArg =
      (process_link url ffA convS o).tracked.dedup := rfl
  have hmem : ∀ p : FPath, p ∈ (process_link url ffA convS o).tracked →
      (process_link url ffA convS o).cleanupArg.count p = 1 := by
    intro p hp
    rw [h1]
    exact List.count_eq_one_of_mem (List.nodup_dedup _) (List.mem_dedup.mpr hp)
  have hnmem : ∀ p : FPath, p ∉ (process_link url ffA convS o).tracked →
      (process_link url ffA convS o).cleanupArg.count p = 0 := by
    intro p hp
    rw [h1]
    exact List.count_eq_zero.mpr (fun hc => hp (List.mem_dedup.mp hc))
  refine ⟨h1, hmem, hnmem, ?_⟩
  intro fs p
  rw [cleanup_attempt_count]
  constructor
  · split
    · by_cases hp : p ∈ (process_link url ffA convS o).tracked
      · rw [hmem p hp]
      · rw [hnmem p hp]
        omega
    · omega
  · intro hp hdel
    rw [if_pos hdel]
    exact hmem p hp

def c1orc : POrc :=
  ⟨InitSend.ok,
    YtdlpCall.returns ⟨true, [⟨"clip", ".mp4"⟩, ⟨"clip", ".mp4"⟩], none, false⟩,
    ⟨false, [], none, false⟩, none, false, false, false, false, true, false, false⟩

/-- C1 witness: a run whose primary fetch returned the same path twice; the
tracked list holds it twice, the cleanup argument exactly once, and the
cleanup routine attempts exactly one deletion for it. -/
theorem c1_cleanup_exactly_once_witness :
    (⟨"clip", ".mp4"⟩ ∈ (process_link "u" true true c1orc).tracked ∧
      (process_link "u" true true c1orc).tracked.count ⟨"clip", ".mp4"⟩ = 2) ∧
    (process_link "u" true true c1orc).cleanupArg.count ⟨"clip", ".mp4"⟩ = 1 ∧
    (cleanup_media_files ⟨fun _ => true, fun _ => true⟩
        (process_link "u" true true c1orc).cleanupArg).count
      (CleanupAct.attemptedDelete ⟨"clip", ".mp4"⟩) = 1 :=
  ⟨⟨by decide, by decide⟩,
    (c1_cleanup_exactly_once "u" true true c1orc).2.1 ⟨"clip", ".mp4"⟩ (by decide),
    ((c1_cleanup_exactly_once "u" true true c1orc).2.2.2
      ⟨fun _ => true, fun _ => true⟩ ⟨"clip", ".mp4"⟩).2 (by decide) (by decide)⟩

def c4orc : POrc :=
  ⟨InitSend.ok, YtdlpCall.returns ⟨true, [], none, false⟩,
    ⟨false, [], none, false⟩, none, false, false, false, false, false, false, false⟩

/-- C4 (divergence witness): when the primary fetch returns success with an
empty file list, process_link sets no final status message, never calls the
sender, and leaves the status message showing its last intermediate text —
it is neither deleted nor rewritten with a "no media" failure, contrary to
the claim. -/
theorem c4_success_empty_left_as_is :
    (process_link "u" true true c4orc).finalMsg = none ∧
    (process_link "u" true true c4orc).statusEnd = StatusEnd.leftAsIs ∧
    (process_link "u" true true c4orc).sendArg = none ∧
    (process_link "u" true true c4orc).mediaSent = false := by
  decide

theorem sendStep_finalMsg (ffA : Bool) (o : POrc) (m0 : Option UserMsg)
    (drOpt : Option DownloadResult) (tr : List FPath) :
    (sendStep ffA o m0 drOpt tr).finalMsg = m0 ∨
    (sendStep ffA o m0 drOpt tr).finalMsg = some UserMsg.unexpectedError ∨
    (sendStep ffA o m0 drOpt tr).finalMsg = some UserMsg.tooLarge ∨
    (sendStep ffA o m0 drOpt tr).finalMsg = some UserMsg.sendFailed ∨
    (sendStep ffA o m0 drOpt tr).finalMsg = some UserMsg.unknownReason ∨
    (sendStep ffA o m0 drOpt tr).finalMsg = some UserMsg.internalError := by
  unfold sendStep
  match drOpt with
  | none =>
    dsimp only
    split <;> simp
  | some dr =>
    dsimp only
    repeat' split
    all_goals simp

/-- C2: in every run whose primary fetch raised the ambiguous-content signal
(NonVideoContentError), the secondary fetch is invoked exactly once, on the
same URL, before the run terminates, and the final user-facing message is
never the ambiguous signal itself. -/
theorem c2_fallback_once_signal_hidden (url : String) (ffA convS : Bool)
    (o : POrc) (d : String)
    (h1 : o.initSend = InitSend.ok) (h2 : o.ytdlp = YtdlpCall.raisesNonVideo d) :
    (process_link url ffA convS o).galleryUrls = [url] ∧
    ∀ s, (process_link url ffA convS o).finalMsg ≠ some (UserMsg.ambiguousSignal s) := by
  unfold process_link runBody
  rw [h1, h2]
  dsimp only
  by_cases hg : o.gallery.success = true
  · rw [if_neg (by simp [hg])]
    refine ⟨rfl, ?_⟩
    intro s hcontra
    dsimp only [applyFinally] at hcontra
    have hl := sendStep_finalMsg ffA o none
      (some (slideshowStep ffA convS o o.gallery
        (setDiffExtend [] o.gallery.media_files)).dr)
      ((slideshowStep ffA convS o o.gallery
        (setDiffExtend [] o.gallery.media_files)).tracked)
    rcases hl with h | h | h | h | h | h <;> rw [h] at hcontra <;> simp at hcontra
  · rw [if_pos (by simp [hg])]
    refine ⟨rfl, ?_⟩
    intro s hcontra
    dsimp only [applyFinally] at hcontra
    have hl := sendStep_finalMsg ffA o
      (some (UserMsg.failedAlternative
        (o.gallery.error_message.getD "Failed alternative download.")))
      (some o.gallery) (setDiffExtend [] o.gallery.media_files)
    rcases hl with h | h | h | h | h | h <;> rw [h] at hcontra <;> simp at hcontra

def c2orc : POrc :=
  ⟨InitSend.ok, YtdlpCall.raisesNonVideo "not a video",
    ⟨false, [], some "Content is private.", true⟩,
    none, false, false, false, false, false, false, false⟩

/-- C2 witness: a run where yt-dlp raises the ambiguous signal and the
fallback fails: gallery-dl is called once on the same URL and the final
message is the fallback's error, not the signal. -/
theorem c2_fallback_once_signal_hidden_witness :
    (c2orc.initSend = InitSend.ok ∧
      c2orc.ytdlp = YtdlpCall.raisesNonVideo "not a video") ∧
    (process_link "u" true true c2orc).galleryUrls = ["u"] ∧
    (process_link "u" true true c2orc).finalMsg ≠
      some (UserMsg.ambiguousSignal "not a video") :=
  ⟨⟨rfl, rfl⟩,
    (c2_fallback_once_signal_hidden "u" true true c2orc "not a video" rfl rfl).1,
    (c2_fallback_once_signal_hidden "u" true true c2orc "not a video" rfl rfl).2
      "not a video"⟩

theorem slideshowStep_composer (o : POrc) (g : DownloadResult) (tr : List FPath)
    (hne : g.media_files.isEmpty = false)
    (hi : (sortByKey MediaProcessing.extract_filename_index
      (g.media_files.filter isImageFile)).isEmpty = false)
    (ha : (g.media_files.filter isAudioFile).isEmpty = false) :
    (slideshowStep true true o g tr).composerCalls = 1 := by
  unfold slideshowStep
  rw [if_pos (by simp [hne])]
  dsimp only
  rw [if_pos (by simp [hi, ha])]
  rcases hdur : o.audio_duration with _ | q
  · rfl
  · dsimp only
    by_cases hq : pointOne < q
    · rw [if_pos hq]
      by_cases hc : (o.conversion_success && o.conversionOutExists) = true
      · rw [if_pos hc]
      · rw [if_neg hc]
        split <;> rfl
    · rw [if_neg hq]

theorem slideshowStep_ok (o : POrc) (g : DownloadResult) (tr : List FPath) (q : ℚ)
    (hne : g.media_files.isEmpty = false)
    (hi : (sortByKey MediaProcessing.extract_filename_index
      (g.media_files.filter isImageFile)).isEmpty = false)
    (ha : (g.media_files.filter isAudioFile).isEmpty = false)
    (hdur : o.audio_duration = some q) (hq : pointOne < q)
    (hcs : o.conversion_success = true) (hce : o.conversionOutExists = true) :
    slideshowStep true true o g tr =
      ⟨{ g with
          media_files :=
            [genVideoPath ((g.media_files.filter isAudioFile).headD ⟨"", ""⟩)],
          is_slideshow := false },
        tr ++ [genVideoPath ((g.media_files.filter isAudioFile).headD ⟨"", ""⟩)],
        1, 1⟩ := by
  unfold slideshowStep
  rw [if_pos (by simp [hne])]
  dsimp only
  rw [if_pos (by simp [hi, ha])]
  rw [hdur]
  dsimp only
  rw [if_pos hq, if_pos (by simp [hcs, hce])]

theorem sendStage_tail_sendArg (o : POrc) (m0 : Option UserMsg)
    (mf : List FPath) (tr1 : List FPath) (pc : Nat) :
    (if o.media_sent then
        (⟨tr1, m0, true, false, pc, some mf⟩ : SendStage)
      else if o.statRaises then
        ⟨tr1, some UserMsg.unexpectedError, false, true, pc, some mf⟩
      else if o.filesTooLarge then
        ⟨tr1, some UserMsg.tooLarge, false, true, pc, some mf⟩
      else
        ⟨tr1, some UserMsg.sendFailed, false, true, pc, some mf⟩).sendArg =
      some mf := by
  split
  · rfl
  · split
    · rfl
    · split <;> rfl

theorem sendStep_mp4_singleton (o : POrc) (dr : DownloadResult) (tr : List FPath)
    (st : String) (hsucc : dr.success = true)
    (hmf : dr.media_files = [⟨st, ".mp4"⟩]) :
    ∃ st', (sendStep true o none (some dr) tr).sendArg =
      some [(⟨st', ".mp4"⟩ : FPath)] := by
  unfold sendStep
  dsimp only
  rw [if_pos (by simp [hsucc, hmf])]
  rw [if_pos rfl]
  rw [hmf]
  have hfind : List.find? isNonImageAudioMedia [(⟨st, ".mp4"⟩ : FPath)] =
      some ⟨st, ".mp4"⟩ := rfl
  rw [hfind]
  dsimp only
  by_cases hps : (o.processing_success && o.processedOutExists) = true
  · rw [if_pos hps]
    dsimp only
    refine ⟨st ++ "_processed", ?_⟩
    rw [sendStage_tail_sendArg]
    rfl
  · rw [if_neg hps]
    by_cases h2 : (o.processedOutExists &&
        decide ((processedVideoPath ⟨st, ".mp4"⟩) ∉ tr)) = true
    · rw [if_pos h2]
      dsimp only
      refine ⟨st, ?_⟩
      rw [sendStage_tail_sendArg, hmf]
    · rw [if_neg h2]
      dsimp only
      refine ⟨st, ?_⟩
      rw [sendStage_tail_sendArg, hmf]

/-- C7: for every run whose secondary fetch returns success with exactly 3
image files and exactly 1 audio file, with the transcoder available and
slideshow conversion enabled, the slideshow-composition step (the
images-and-audio branch, including its duration probe) is entered exactly
once; and whenever the composition actually runs and succeeds (duration
determinable and above the 0.1s floor, conversion successful with the output
present), create_slideshow_video was invoked exactly once and the file list
handed to the delivery step is a single video and no loose images or audio. -/
theorem c7_compose_once_single_video (url : String) (o : POrc) (d : String)
    (h1 : o.initSend = InitSend.ok)
    (h2 : o.ytdlp = YtdlpCall.raisesNonVideo d)
    (h3 : o.gallery.success = true)
    (h4 : (o.gallery.media_files.filter isImageFile).length = 3)
    (h5 : (o.gallery.media_files.filter isAudioFile).length = 1) :
    (process_link url true true o).composerCalls = 1 ∧
    (∀ q : ℚ, o.audio_duration = some q → pointOne < q →
      o.conversion_success = true → o.conversionOutExists = true →
      (process_link url true true o).slideshowCalls = 1 ∧
      ∃ l, (process_link url true true o).sendArg = some l ∧
        l.length = 1 ∧ (l.filter isVideoFile).length = 1 ∧
        (l.filter isImageFile).length = 0 ∧ (l.filter isAudioFile).length = 0) := by
  have hne : o.gallery.media_files.isEmpty = false := by
    rcases hm : o.gallery.media_files with _ | ⟨x, xs⟩
    · rw [hm] at h4; simp at h4
    · rfl
  have hi : (sortByKey MediaProcessing.extract_filename_index
      (o.gallery.media_files.filter isImageFile)).isEmpty = false := by
    rcases hm : sortByKey MediaProcessing.extract_filename_index
        (o.gallery.media_files.filter isImageFile) with _ | ⟨x, xs⟩
    · have hsl := sortByKey_length MediaProcessing.extract_filename_index
        (o.gallery.media_files.filter isImageFile)
      rw [hm, h4] at hsl
      simp at hsl
    · rfl
  have ha : (o.gallery.media_files.filter isAudioFile).isEmpty = false := by
    rcases hm : o.gallery.media_files.filter isAudioFile with _ | ⟨x, xs⟩
    · rw [hm] at h5; simp at h5
    · rfl
  unfold process_link runBody
  rw [h1, h2]
  dsimp only
  rw [if_neg (by simp [h3])]
  constructor
  · exact slideshowStep_composer o o.gallery _ hne hi ha
  · intro q hdur hq hcs hce
    have hconv := slideshowStep_ok o o.gallery
      (setDiffExtend [] o.gallery.media_files) q hne hi ha hdur hq hcs hce
    rw [hconv]
    dsimp only
    constructor
    · rfl
    · have hsend := sendStep_mp4_singleton o
        { o.gallery with
          media_files :=
            [genVideoPath ((o.gallery.media_files.filter isAudioFile).headD ⟨"", ""⟩)],
          is_slideshow := false }
        (setDiffExtend [] o.gallery.media_files ++
          [genVideoPath ((o.gallery.media_files.filter isAudioFile).headD ⟨"", ""⟩)])
        ("video_gen_" ++ ((o.gallery.media_files.filter isAudioFile).headD ⟨"", ""⟩).stem)
        h3 rfl
      obtain ⟨st', hst⟩ := hsend
      refine ⟨[⟨st', ".mp4"⟩], hst, rfl, ?_, ?_, ?_⟩
      · have hv : isVideoFile ⟨st', ".mp4"⟩ = true := rfl
        simp [List.filter, hv]
      · have hv : isImageFile ⟨st', ".mp4"⟩ = false := rfl
        simp [List.filter, hv]
      · have hv : isAudioFile ⟨st', ".mp4"⟩ = false := rfl
        simp [List.filter, hv]

def c7orc : POrc :=
  ⟨InitSend.ok, YtdlpCall.raisesNonVideo "nv",
    ⟨true, [⟨"1", ".jpg"⟩, ⟨"2", ".jpg"⟩, ⟨"3", ".jpg"⟩, ⟨"snd", ".mp3"⟩], none, true⟩,
    some 1, true, true, false, false, true, false, false⟩

/-- C7 witness: a fallback result of 3 images and 1 audio with a 1-second
duration and successful conversion; the composer runs once and the delivery
step receives the single generated video. -/
theorem c7_compose_once_single_video_witness :
    ((c7orc.initSend = InitSend.ok ∧
       c7orc.ytdlp = YtdlpCall.raisesNonVideo "nv" ∧
       c7orc.gallery.success = true ∧
       (c7orc.gallery.media_files.filter isImageFile).length = 3 ∧
       (c7orc.gallery.media_files.filter isAudioFile).length = 1) ∧
      (c7orc.audio_duration = some 1 ∧ pointOne < 1 ∧
        c7orc.conversion_success = true ∧ c7orc.conversionOutExists = true)) ∧
    (process_link "u" true true c7orc).composerCalls = 1 ∧
    ((process_link "u" true true c7orc).slideshowCalls = 1 ∧
      ∃ l, (process_link "u" true true c7orc).sendArg = some l ∧
        l.length = 1 ∧ (l.filter isVideoFile).length = 1 ∧
        (l.filter isImageFile).length = 0 ∧ (l.filter isAudioFile).length = 0) :=
  ⟨⟨⟨rfl, rfl, rfl, by decide, by decide⟩, ⟨rfl, by decide, rfl, rfl⟩⟩,
    (c7_compose_once_single_video "u" c7orc "nv" rfl rfl rfl (by decide) (by decide)).1,
    (c7_compose_once_single_video "u" c7orc "nv" rfl rfl rfl (by decide) (by decide)).2
      1 rfl (by decide) rfl rfl⟩
